import Mathlib

/-! Sawtooth validator client (`clients/javascript/lib/validator.js`).

A shallow embedding of the JavaScript validator client: the chunked body
writer of `_httpRequest`, the response classifier `_unwrapResponseBody`,
the transaction submitter `_sendTransaction`, and the properties stated
about them.
-/

set_option autoImplicit false

namespace Validator

/-! ## Buffers and the chunked writer -/

/-- The contents of a Node `Buffer`: a finite sequence of octets. -/
abbrev Bytes := List UInt8

/-- `var CHUNK_SIZE = 10 * 1024;` -/
def CHUNK_SIZE : Nat := 10 * 1024

/-- `buffer.slice(start, end)` for non-negative indices: both indices are
clamped to the buffer length and an end before the start gives the empty
buffer. -/
def bufferSlice (buffer : Bytes) (start stop : Nat) : Bytes :=
  (buffer.take stop).drop start

/-- The `while (chunk.length > 0)` loop of `_httpRequest`.  The state is the
current `chunk`, the counter `i` and the list of chunks passed to
`req.write` so far; `fuel` bounds the number of times the loop condition is
evaluated, and `none` means the bound was reached. -/
def writeLoop (buffer : Bytes) : Nat → Bytes → Nat → List Bytes → Option (List Bytes)
  | 0, _, _, _ => none
  | fuel + 1, chunk, i, written =>
    if chunk.length > 0 then
      writeLoop buffer fuel
        (bufferSlice buffer (i * CHUNK_SIZE) ((i + 1) * CHUNK_SIZE)) (i + 1)
        (written ++ [chunk])
    else
      some written

/-- The body-writing statements of `_httpRequest` once `buffer` is known:
`var chunk = buffer.slice(0, CHUNK_SIZE); var i = 1; while ...`. -/
def writeChunks (fuel : Nat) (buffer : Bytes) : Option (List Bytes) :=
  writeLoop buffer fuel (bufferSlice buffer 0 CHUNK_SIZE) 1 []

/-! ## JavaScript values

Strings are modelled by Lean strings, i.e. sequences of Unicode scalar
values: a JavaScript string with an unpaired surrogate has no counterpart.
Numbers are the integer-valued ones. -/

mutual
/-- The JavaScript values the client handles: primitives, `Buffer`s, arrays
and plain objects (own enumerable properties in enumeration order). -/
inductive JSValue where
  | undefined
  | null
  | bool (b : Bool)
  | number (n : Int)
  | string (s : String)
  | buffer (b : List UInt8)
  | array (xs : JSList)
  | object (ps : JSProps)
  deriving DecidableEq
/-- The elements of an array. -/
inductive JSList where
  | nil
  | cons (v : JSValue) (rest : JSList)
  deriving DecidableEq
/-- The own properties of a plain object. -/
inductive JSProps where
  | nil
  | cons (k : String) (v : JSValue) (rest : JSProps)
  deriving DecidableEq
end

/-- What a `throw` statement, a failed assertion, a runtime type error or a
transport failure carries. -/
inductive Thrown where
  /-- The object literal `{statusCode, errorTypeMessage, errorMessage}`
  thrown by `_unwrapResponseBody`; `none` is `null`. -/
  | structured (statusCode : Int) (errorTypeMessage errorMessage : Option String)
  /-- The value `new Error(message)`. -/
  | error (message : String)
  /-- A `TypeError` raised by the runtime (property of `null`, call of a
  non-function, object without primitive value). -/
  | typeError
  /-- An `AssertionError` raised by `assert(value, message)`. -/
  | assertionError (message : String)
  /-- An `error` event of the request or response stream. -/
  | transport (code : String)
  /-- An error raised by a decoder (`JSON.parse`, `cbor.decodeFirst`). -/
  | decode (message : String)
  deriving DecidableEq

/-- Equality of results is decidable when it is for errors and values. -/
instance instDecidableEqExcept {ε α : Type} [DecidableEq ε] [DecidableEq α] :
    DecidableEq (Except ε α) := fun a b =>
  match a, b with
  | .ok x, .ok y =>
    if h : x = y then isTrue (by rw [h]) else isFalse (fun h2 => h (Except.ok.inj h2))
  | .error x, .error y =>
    if h : x = y then isTrue (by rw [h]) else isFalse (fun h2 => h (Except.error.inj h2))
  | .ok _, .error _ => isFalse (fun h => Except.noConfusion h)
  | .error _, .ok _ => isFalse (fun h => Except.noConfusion h)

/-- JavaScript truthiness (`ToBoolean`). -/
def truthy : JSValue → Bool
  | .undefined => false
  | .null => false
  | .bool b => b
  | .number n => n != 0
  | .string s => s != ""
  | .buffer _ => true
  | .array _ => true
  | .object _ => true

/-- `Buffer.isBuffer(v)`. -/
def isBuffer : JSValue → Bool
  | .buffer _ => true
  | _ => false

/-- `typeof v === 'string'`. -/
def isString : JSValue → Bool
  | .string _ => true
  | _ => false

/-- Own-property lookup in a plain object. -/
def JSProps.find? : JSProps → String → Option JSValue
  | .nil, _ => none
  | .cons k v rest, name => if k = name then some v else rest.find? name

/-- Property read `v.name` for a name that no built-in prototype defines
(such as `Transaction` or `Signature`): a `TypeError` on `undefined` and
`null`, the own property of a plain object, `undefined` otherwise. -/
def getProp (v : JSValue) (name : String) : Except Thrown JSValue :=
  match v with
  | .undefined => .error .typeError
  | .null => .error .typeError
  | .object ps => .ok ((ps.find? name).getD .undefined)
  | _ => .ok .undefined

/-! ## Strings: length, UTF-8, split, join, trim -/

/-- The `length` of a string: its number of UTF-16 code units. -/
def utf16Length (s : String) : Nat :=
  (s.data.map (fun c => if c.toNat < 0x10000 then 1 else 2)).sum

/-- The UTF-8 encoding of one character. -/
def utf8EncodeChar (c : Char) : Bytes :=
  let v := c.toNat
  if v < 0x80 then
    [UInt8.ofNat v]
  else if v < 0x800 then
    [UInt8.ofNat (0xC0 + v / 0x40), UInt8.ofNat (0x80 + v % 0x40)]
  else if v < 0x10000 then
    [UInt8.ofNat (0xE0 + v / 0x1000), UInt8.ofNat (0x80 + v / 0x40 % 0x40),
      UInt8.ofNat (0x80 + v % 0x40)]
  else
    [UInt8.ofNat (0xF0 + v / 0x40000), UInt8.ofNat (0x80 + v / 0x1000 % 0x40),
      UInt8.ofNat (0x80 + v / 0x40 % 0x40), UInt8.ofNat (0x80 + v % 0x40)]

/-- `new Buffer(s)` for a string `s`: its UTF-8 encoding. -/
def utf8Encode (s : String) : Bytes :=
  s.data.flatMap utf8EncodeChar

/-- The replacement character U+FFFD. -/
def replacementChar : Char := Char.ofNat 0xFFFD

/-- Whether `b` is a UTF-8 continuation byte within `[lo, hi]`. -/
def inRange (b : UInt8) (lo hi : Nat) : Bool :=
  lo ≤ b.toNat && b.toNat ≤ hi

/-- One step of UTF-8 decoding: the character read at the head of a
non-empty input and the number of bytes consumed.  An ill-formed sequence
gives U+FFFD and consumes its maximal valid prefix (at least one byte). -/
def utf8DecodeStep (b0 : UInt8) (rest : Bytes) : Char × Nat :=
  let v0 := b0.toNat
  if v0 < 0x80 then (Char.ofNat v0, 1)
  else if 0xC2 ≤ v0 && v0 ≤ 0xDF then
    match rest with
    | b1 :: _ =>
      if inRange b1 0x80 0xBF then (Char.ofNat ((v0 - 0xC0) * 0x40 + (b1.toNat - 0x80)), 2)
      else (replacementChar, 1)
    | [] => (replacementChar, 1)
  else if 0xE0 ≤ v0 && v0 ≤ 0xEF then
    let lo := if v0 = 0xE0 then 0xA0 else 0x80
    let hi := if v0 = 0xED then 0x9F else 0xBF
    match rest with
    | b1 :: rest1 =>
      if inRange b1 lo hi then
        match rest1 with
        | b2 :: _ =>
          if inRange b2 0x80 0xBF then
            (Char.ofNat ((v0 - 0xE0) * 0x1000 + (b1.toNat - 0x80) * 0x40 + (b2.toNat - 0x80)), 3)
          else (replacementChar, 2)
        | [] => (replacementChar, 2)
      else (replacementChar, 1)
    | [] => (replacementChar, 1)
  else if 0xF0 ≤ v0 && v0 ≤ 0xF4 then
    let lo := if v0 = 0xF0 then 0x90 else 0x80
    let hi := if v0 = 0xF4 then 0x8F else 0xBF
    match rest with
    | b1 :: rest1 =>
      if inRange b1 lo hi then
        match rest1 with
        | b2 :: rest2 =>
          if inRange b2 0x80 0xBF then
            match rest2 with
            | b3 :: _ =>
              if inRange b3 0x80 0xBF then
                (Char.ofNat ((v0 - 0xF0) * 0x40000 + (b1.toNat - 0x80) * 0x1000
                  + (b2.toNat - 0x80) * 0x40 + (b3.toNat - 0x80)), 4)
              else (replacementChar, 3)
            | [] => (replacementChar, 3)
          else (replacementChar, 2)
        | [] => (replacementChar, 2)
      else (replacementChar, 1)
    | [] => (replacementChar, 1)
  else (replacementChar, 1)

/-- UTF-8 decoding with at most `fuel` characters produced. -/
def utf8DecodeAux : Nat → Bytes → List Char
  | 0, _ => []
  | _ + 1, [] => []
  | fuel + 1, b0 :: rest =>
    let step := utf8DecodeStep b0 rest
    step.1 :: utf8DecodeAux fuel (rest.drop (step.2 - 1))

/-- `buffer.toString()`: the UTF-8 decoding of a buffer (every character
consumes at least one byte, so the length of the buffer bounds the number of
characters). -/
def utf8Decode (b : Bytes) : String :=
  String.mk (utf8DecodeAux b.length b)

/-- `s.split(sep)` for a one-character separator, on character lists. -/
def splitOn (sep : Char) : List Char → List (List Char)
  | [] => [[]]
  | c :: cs =>
    if c = sep then [] :: splitOn sep cs
    else
      match splitOn sep cs with
      | [] => [[c]]
      | seg :: segs => (c :: seg) :: segs

/-- `segs.join(sep)` for a one-character separator, on character lists. -/
def joinWith (sep : Char) : List (List Char) → List Char
  | [] => []
  | [seg] => seg
  | seg :: seg2 :: segs => seg ++ sep :: joinWith sep (seg2 :: segs)

/-- The code points `String.prototype.trim` strips: ECMAScript `WhiteSpace`
and `LineTerminator`. -/
def isTrimChar (c : Char) : Bool :=
  let v := c.toNat
  v = 0x09 || v = 0x0A || v = 0x0B || v = 0x0C || v = 0x0D || v = 0x20 || v = 0xA0
    || v = 0x1680 || (0x2000 ≤ v && v ≤ 0x200A) || v = 0x2028 || v = 0x2029
    || v = 0x202F || v = 0x205F || v = 0x3000 || v = 0xFEFF

/-- `s.trim()` on character lists. -/
def trimChars (s : List Char) : List Char :=
  ((s.dropWhile isTrimChar).reverse.dropWhile isTrimChar).reverse

/-- `s.trim()`. -/
def jsTrim (s : String) : String :=
  String.mk (trimChars s.data)

/-! ## `ToString` -/

mutual
/-- The abstract operation `ToString` on the modelled values; `none` when it
raises a `TypeError`.  A plain object with an own `toString` property
(necessarily not callable here) has no primitive value; any other plain
object prints as `[object Object]`. -/
def jsToString : JSValue → Option String
  | .undefined => some "undefined"
  | .null => some "null"
  | .bool b => some (if b then "true" else "false")
  | .number n => some (toString n)
  | .string s => some s
  | .buffer b => some (utf8Decode b)
  | .array xs => jsJoinComma xs
  | .object ps =>
    match ps.find? "toString" with
    | some _ => none
    | none => some "[object Object]"
/-- `Array.prototype.join` with the default separator: `undefined` and
`null` elements print as the empty string. -/
def jsJoinComma : JSList → Option String
  | .nil => some ""
  | .cons v rest =>
    match jsElementString v with
    | none => none
    | some s =>
      match rest with
      | .nil => some s
      | .cons _ _ =>
        match jsJoinComma rest with
        | none => none
        | some t => some (s ++ "," ++ t)
/-- The string an array element contributes to `join`. -/
def jsElementString : JSValue → Option String
  | .undefined => some ""
  | .null => some ""
  | .bool b => some (if b then "true" else "false")
  | .number n => some (toString n)
  | .string s => some s
  | .buffer b => some (utf8Decode b)
  | .array xs => jsJoinComma xs
  | .object ps =>
    match ps.find? "toString" with
    | some _ => none
    | none => some "[object Object]"
end

/-! ## The response unwrapper -/

/-- Matches a literal at the head of the input and returns what follows. -/
def matchLiteral : List Char → List Char → Option (List Char)
  | [], s => some s
  | _ :: _, [] => none
  | l :: ls, c :: cs => if l = c then matchLiteral ls cs else none

/-- Whether `/^unable[d]? to decode incoming request.*/` matches a string:
the literal `unable` at the start, an optional `d` (tried first, then
skipped), the literal ` to decode incoming request`; the final `.*` matches
any rest, the empty one included. -/
def sentinelMatches (s : List Char) : Bool :=
  match matchLiteral "unable".data s with
  | none => false
  | some afterUnable =>
    (match matchLiteral "d".data afterUnable with
      | some afterD => (matchLiteral " to decode incoming request".data afterD).isSome
      | none => false)
    || (matchLiteral " to decode incoming request".data afterUnable).isSome

/-- `/^unable[d]? to decode incoming request.*/.exec(v)`, as a truth value:
`exec` first converts its argument with `ToString`. -/
def sentinelExec (v : JSValue) : Except Thrown Bool :=
  match jsToString v with
  | none => .error .typeError
  | some s => .ok (sentinelMatches s.data)

/-- `v.split(":")`: defined on strings; on every other modelled value the
property read fails or `split` is not a function. -/
def callSplit (v : JSValue) : Except Thrown (List (List Char)) :=
  match v with
  | .string s => .ok (splitOn ':' s.data)
  | _ => .error .typeError

/-- `msgs[0] ? msgs[0].trim() : null`. -/
def errorTypeMessageOf (msgs : List (List Char)) : Option String :=
  match msgs with
  | [] => none
  | m0 :: _ => if m0 ≠ [] then some (String.mk (trimChars m0)) else none

/-- `msgs.length > 1 ? msgs.slice(1).join(':').trim() : null`. -/
def errorMessageOf (msgs : List (List Char)) : Option String :=
  if msgs.length > 1 then some (String.mk (trimChars (joinWith ':' (msgs.drop 1)))) else none

/-- The result `{body, headers, statusCode}` that `_httpRequest` resolves
with. -/
structure RawResult where
  body : JSValue
  headers : List (String × String)
  statusCode : Int
  deriving DecidableEq

/-- `_unwrapResponseBody(result)`: `.ok v` is `return v`, `.error e` is an
exception. -/
def _unwrapResponseBody (result : RawResult) : Except Thrown JSValue :=
  if result.statusCode = 200 then
    .ok result.body
  else if result.statusCode = 404 then
    .ok .null
  else if result.statusCode = 400 then
    match sentinelExec result.body with
    | .error e => .error e
    | .ok true => .error (.error ("Invalid Request: " ++ toString result.statusCode))
    | .ok false =>
      match callSplit result.body with
      | .error e => .error e
      | .ok msgs => .error (.structured 400 (errorTypeMessageOf msgs) (errorMessageOf msgs))
  else
    .error (.error ("Invalid Request: " ++ toString result.statusCode))

/-! ## Conditions used by the specification -/

/-- The specification's condition "the body begins, compared
case-insensitively, with `p`". -/
def beginsIgnoringCase (p s : List Char) : Bool :=
  (s.take p.length).map Char.toLower == p.map Char.toLower

/-- The specification's condition "the argument is null, undefined or
empty", for the empty string. -/
def isMissing (v : JSValue) : Bool :=
  v = .undefined || v = .null || v = .string ""

/-- The specification's condition "the decoded envelope lacks the
`Transaction.Signature` field": reading `Transaction` or `Signature` fails,
or the signature is `undefined`. -/
def lacksSignature (envelope : JSValue) : Bool :=
  match getProp envelope "Transaction" with
  | .error _ => true
  | .ok transaction =>
    match getProp transaction "Signature" with
    | .error _ => true
    | .ok signature => signature = .undefined

/-- The text of a store name or key after its optional leading slash. -/
def segmentBody (s : String) : List Char :=
  if s.data.head? = some '/' then s.data.tail else s.data

/-- The condition "apart from one optional leading slash, the text is not
empty and contains no slash". -/
def cleanSegment (s : String) : Bool :=
  segmentBody s ≠ [] && decide ('/' ∉ segmentBody s)

/-! ## SHA-256 (FIPS 180-4), hexadecimal encoding

The packages `sha256` and `binstring` that `_sendTransaction` calls are not
part of the repository; they are modelled from what the specification says
they compute. -/

/-- The round constants of SHA-256. -/
def sha256K : List Nat :=
  [0x428a2f98, 0x71374491, 0xb5c0fbcf, 0xe9b5dba5, 0x3956c25b, 0x59f111f1, 0x923f82a4, 0xab1c5ed5,
   0xd807aa98, 0x12835b01, 0x243185be, 0x550c7dc3, 0x72be5d74, 0x80deb1fe, 0x9bdc06a7, 0xc19bf174,
   0xe49b69c1, 0xefbe4786, 0x0fc19dc6, 0x240ca1cc, 0x2de92c6f, 0x4a7484aa, 0x5cb0a9dc, 0x76f988da,
   0x983e5152, 0xa831c66d, 0xb00327c8, 0xbf597fc7, 0xc6e00bf3, 0xd5a79147, 0x06ca6351, 0x14292967,
   0x27b70a85, 0x2e1b2138, 0x4d2c6dfc, 0x53380d13, 0x650a7354, 0x766a0abb, 0x81c2c92e, 0x92722c85,
   0xa2bfe8a1, 0xa81a664b, 0xc24b8b70, 0xc76c51a3, 0xd192e819, 0xd6990624, 0xf40e3585, 0x106aa070,
   0x19a4c116, 0x1e376c08, 0x2748774c, 0x34b0bcb5, 0x391c0cb3, 0x4ed8aa4a, 0x5b9cca4f, 0x682e6ff3,
   0x748f82ee, 0x78a5636f, 0x84c87814, 0x8cc70208, 0x90befffa, 0xa4506ceb, 0xbef9a3f7, 0xc67178f2]

/-- Reduction to a 32-bit word. -/
def word32 (n : Nat) : Nat := n % 2 ^ 32

/-- Rotation of a 32-bit word to the right. -/
def rotr (x n : Nat) : Nat := (x >>> n) ||| word32 (x <<< (32 - n))

/-- The function σ₀ of the message schedule. -/
def smallSigma0 (x : Nat) : Nat := rotr x 7 ^^^ rotr x 18 ^^^ (x >>> 3)
/-- The function σ₁ of the message schedule. -/
def smallSigma1 (x : Nat) : Nat := rotr x 17 ^^^ rotr x 19 ^^^ (x >>> 10)
/-- The function Σ₀ of the compression function. -/
def bigSigma0 (x : Nat) : Nat := rotr x 2 ^^^ rotr x 13 ^^^ rotr x 22
/-- The function Σ₁ of the compression function. -/
def bigSigma1 (x : Nat) : Nat := rotr x 6 ^^^ rotr x 11 ^^^ rotr x 25
/-- The function `Ch`. -/
def choose (x y z : Nat) : Nat := (x &&& y) ^^^ ((x ^^^ 0xffffffff) &&& z)
/-- The function `Maj`. -/
def majority (x y z : Nat) : Nat := (x &&& y) ^^^ (x &&& z) ^^^ (y &&& z)

/-- The padded message: the bytes, `0x80`, zeros up to 56 modulo 64, and the
bit length as a 64-bit big-endian number. -/
def sha256Pad (msg : List Nat) : List Nat :=
  let bits := msg.length * 8
  msg ++ [0x80] ++ List.replicate ((64 - (msg.length + 9) % 64) % 64) 0
    ++ (List.range 8).map (fun i => bits / 2 ^ (8 * (7 - i)) % 256)

/-- Big-endian 32-bit words of a byte sequence. -/
def toWords : List Nat → List Nat
  | a :: b :: c :: d :: rest => (a * 0x1000000 + b * 0x10000 + c * 0x100 + d) :: toWords rest
  | _ => []

/-- Extends a message schedule by `n` words. -/
def extendSchedule : Nat → List Nat → List Nat
  | 0, w => w
  | n + 1, w =>
    let t := w.length
    extendSchedule n (w ++ [word32 (smallSigma1 (w.getD (t - 2) 0) + w.getD (t - 7) 0
      + smallSigma0 (w.getD (t - 15) 0) + w.getD (t - 16) 0)])

/-- The eight working variables / hash words. -/
structure Sha256State where
  a : Nat
  b : Nat
  c : Nat
  d : Nat
  e : Nat
  f : Nat
  g : Nat
  h : Nat

/-- The initial hash value. -/
def sha256Init : Sha256State :=
  ⟨0x6a09e667, 0xbb67ae85, 0x3c6ef372, 0xa54ff53a, 0x510e527f, 0x9b05688c, 0x1f83d9ab, 0x5be0cd19⟩

/-- One round of the compression function. -/
def sha256Round (s : Sha256State) (kw : Nat × Nat) : Sha256State :=
  let t1 := word32 (s.h + bigSigma1 s.e + choose s.e s.f s.g + kw.1 + kw.2)
  let t2 := word32 (bigSigma0 s.a + majority s.a s.b s.c)
  ⟨word32 (t1 + t2), s.a, s.b, s.c, word32 (s.d + t1), s.e, s.f, s.g⟩

/-- The compression function on one 16-word block. -/
def sha256Compress (s : Sha256State) (block : List Nat) : Sha256State :=
  let r := (sha256K.zip (extendSchedule 48 block)).foldl sha256Round s
  ⟨word32 (s.a + r.a), word32 (s.b + r.b), word32 (s.c + r.c), word32 (s.d + r.d),
    word32 (s.e + r.e), word32 (s.f + r.f), word32 (s.g + r.g), word32 (s.h + r.h)⟩

/-- Compression over `n` consecutive blocks. -/
def sha256Blocks : Nat → List Nat → Sha256State → Sha256State
  | 0, _, s => s
  | n + 1, ws, s => sha256Blocks n (ws.drop 16) (sha256Compress s (ws.take 16))

/-- The four bytes of a word, big-endian. -/
def wordBytes (w : Nat) : Bytes :=
  [UInt8.ofNat (w / 0x1000000 % 256), UInt8.ofNat (w / 0x10000 % 256),
    UInt8.ofNat (w / 0x100 % 256), UInt8.ofNat (w % 256)]

/-- Modelled from the spec: the digest function of the `sha256` package,
whose code is not under `src/`; the specification has the client compute
SHA-256 over the raw signature bytes, so this is SHA-256 as FIPS 180-4
defines it, giving the 32-byte digest. -/
def sha256 (msg : Bytes) : Bytes :=
  let ws := toWords (sha256Pad (msg.map UInt8.toNat))
  let s := sha256Blocks (ws.length / 16) ws sha256Init
  wordBytes s.a ++ wordBytes s.b ++ wordBytes s.c ++ wordBytes s.d
    ++ wordBytes s.e ++ wordBytes s.f ++ wordBytes s.g ++ wordBytes s.h

/-- A hexadecimal digit, lower case. -/
def hexDigit (n : Nat) : Char :=
  if n < 10 then Char.ofNat (48 + n) else Char.ofNat (87 + n)

/-- Modelled from the spec: `conv(sha, {out: 'hex'})` of the `binstring`
package, whose code is not under `src/`; the specification has the client
hex-encode the digest into a lower-case hexadecimal string, two characters
for each byte. -/
def hexEncode (b : Bytes) : List Char :=
  b.flatMap (fun x => [hexDigit (x.toNat / 16), hexDigit (x.toNat % 16)])

/-! ## `JSON.stringify` -/

/-- The JSON escape of one character of a string. -/
def jsonQuoteChar (c : Char) : List Char :=
  let v := c.toNat
  if v = 0x22 then [Char.ofNat 0x5C, Char.ofNat 0x22]
  else if v = 0x5C then [Char.ofNat 0x5C, Char.ofNat 0x5C]
  else if v = 0x08 then [Char.ofNat 0x5C, 'b']
  else if v = 0x09 then [Char.ofNat 0x5C, 't']
  else if v = 0x0A then [Char.ofNat 0x5C, 'n']
  else if v = 0x0C then [Char.ofNat 0x5C, 'f']
  else if v = 0x0D then [Char.ofNat 0x5C, 'r']
  else if v < 0x20 then [Char.ofNat 0x5C, 'u', '0', '0', hexDigit (v / 16), hexDigit (v % 16)]
  else [c]

/-- A string as a JSON string literal. -/
def jsonQuote (s : String) : List Char :=
  Char.ofNat 0x22 :: s.data.flatMap jsonQuoteChar ++ [Char.ofNat 0x22]

mutual
/-- `JSON.stringify(v)` on the modelled values; `none` is `undefined`.  A
`Buffer` serializes through its `toJSON`, as an object with `type` and
`data`.  A number prints as the decimal of its integer value, which is what
`JSON.stringify` prints for an integer that a double holds exactly and whose
magnitude is below `10^21`; larger or inexact integers are outside the
model. -/
def jsonStringify : JSValue → Option (List Char)
  | .undefined => none
  | .null => some "null".data
  | .bool b => some (if b then "true".data else "false".data)
  | .number n => some (toString n).data
  | .string s => some (jsonQuote s)
  | .buffer b =>
    some ("\x7b\"type\":\"Buffer\",\"data\":[".data
      ++ joinWith ',' (b.map (fun x => (toString x.toNat).data)) ++ "]\x7d".data)
  | .array xs => some ('[' :: joinWith ',' (jsonItems xs) ++ [']'])
  | .object ps => some (Char.ofNat 0x7B :: joinWith ',' (jsonMembers ps) ++ [Char.ofNat 0x7D])
/-- The serialized elements of an array: `undefined` serializes as `null`. -/
def jsonItems : JSList → List (List Char)
  | .nil => []
  | .cons v rest => (jsonStringify v).getD "null".data :: jsonItems rest
/-- The serialized members of an object: a property whose value is
`undefined` is left out. -/
def jsonMembers : JSProps → List (List Char)
  | .nil => []
  | .cons k v rest =>
    match jsonStringify v with
    | none => jsonMembers rest
    | some text => (jsonQuote k ++ ':' :: text) :: jsonMembers rest
end

/-! ## The transport `_httpRequest` -/

/-- The body handed to `_httpRequest`: `_sendTransaction` passes a `Buffer`
or a string. -/
inductive Data where
  | buffer (b : Bytes)
  | string (s : String)
  deriving DecidableEq

/-- The property `data.length`: bytes of a buffer, UTF-16 code units of a
string. -/
def Data.length : Data → Nat
  | .buffer b => b.length
  | .string s => utf16Length s

/-- Truthiness of a body: every buffer, and every string but the empty one. -/
def Data.truthy : Data → Bool
  | .buffer _ => true
  | .string s => s != ""

/-- `Buffer.isBuffer(data) ? data : new Buffer(data)`. -/
def Data.toBuffer : Data → Bytes
  | .buffer b => b
  | .string s => utf8Encode s

/-- The options object passed to `http.request`. -/
structure RequestOptions where
  hostname : JSValue
  port : JSValue
  path : JSValue
  /-- The `method` property; `none` when absent (a GET request). -/
  method : Option String
  headers : List (String × JSValue)
  deriving DecidableEq

/-- What the network answers to one request. -/
inductive Reply where
  /-- An `error` event on the request. -/
  | requestError (e : Thrown)
  /-- An `error` event on the response. -/
  | responseError (e : Thrown)
  /-- A response: status code, headers (lower-case names), the chunks of the
  `data` events, then `end`. -/
  | response (statusCode : Int) (headers : List (String × String)) (chunks : List Bytes)

/-- The surroundings of the client: the network and the library functions
whose code is outside the repository. -/
structure Env where
  /-- The reply to a request, given its options and the chunks written. -/
  network : RequestOptions → List Bytes → Reply
  /-- The function `cbor.decodeFirst`. -/
  cborDecodeFirst : Bytes → Except Thrown JSValue
  /-- The function `JSON.parse`. -/
  jsonParse : String → Except Thrown JSValue
  /-- The function `sha256(message, {asBytes: true})` on a message that is
  neither `undefined`, `null`, a string nor a `Buffer`. -/
  sha256Other : JSValue → Except Thrown Bytes

/-- How a call that returns a promise ends. -/
inductive Outcome (α : Type) where
  /-- The promise is resolved with a value. -/
  | resolved (v : α)
  /-- The promise is rejected. -/
  | rejected (e : Thrown)
  /-- The call itself throws, before returning a promise. -/
  | thrown (e : Thrown)
  /-- The promise is never settled. -/
  | unsettled
  deriving DecidableEq

/-- What one call of `_httpRequest` sends: the options given to
`http.request`, the `data` argument, and the chunks passed to `req.write` in
order. -/
structure Exchange where
  options : RequestOptions
  data : Option Data
  written : List Bytes
  deriving DecidableEq

/-- The chunks `_httpRequest` writes for its `data` argument: none when
`data` is absent or falsy, else the write loop on the buffer (run with more
fuel than the buffer has bytes). -/
def writeBody (data : Option Data) : Option (List Bytes) :=
  match data with
  | none => some []
  | some d =>
    if d.truthy then writeChunks (d.toBuffer.length + 1) d.toBuffer
    else some []

/-- The `end` handler of the response: decoding by content type.  A
rejection of `cbor.decodeFirst` has no handler and an exception of
`JSON.parse` escapes the event handler; in both cases the promise stays
unsettled. -/
def decodeResponse (env : Env) (statusCode : Int) (headers : List (String × String))
    (buffer : Bytes) : Outcome RawResult :=
  if headers.lookup "content-type" = some "application/cbor" then
    match env.cborDecodeFirst buffer with
    | .ok v => .resolved ⟨v, headers, statusCode⟩
    | .error _ => .unsettled
  else if headers.lookup "content-type" = some "application/json" then
    if buffer.length > 0 then
      match env.jsonParse (utf8Decode buffer) with
      | .ok v => .resolved ⟨v, headers, statusCode⟩
      | .error _ => .unsettled
    else .resolved ⟨.null, headers, statusCode⟩
  else
    .resolved ⟨.string (utf8Decode buffer), headers, statusCode⟩

/-- `_httpRequest(options, data)`: what is sent and how the promise ends. -/
def _httpRequest (env : Env) (options : RequestOptions) (data : Option Data) :
    Exchange × Outcome RawResult :=
  match writeBody data with
  | none => (⟨options, data, []⟩, .unsettled)
  | some written =>
    (⟨options, data, written⟩,
      match env.network options written with
      | .requestError e => .rejected e
      | .responseError e => .rejected e
      | .response statusCode headers chunks =>
        decodeResponse env statusCode headers chunks.flatten)

/-- `_get(options)`. -/
def _get (env : Env) (options : RequestOptions) : Exchange × Outcome RawResult :=
  _httpRequest env options none

/-- `_post(options, data)`: `_.assign(options, {method: 'POST'})`. -/
def _post (env : Env) (options : RequestOptions) (data : Data) :
    Exchange × Outcome RawResult :=
  _httpRequest env { options with method := some "POST" } (some data)

/-! ## The transaction submitter `_sendTransaction` -/

/-- The UTF-16 code units of one character: itself below U+10000, a
surrogate pair above. -/
def utf16Units (c : Char) : List Nat :=
  if c.toNat < 0x10000 then [c.toNat]
  else [0xD800 + (c.toNat - 0x10000) / 0x400, 0xDC00 + (c.toNat - 0x10000) % 0x400]

/-- `new Buffer(s, 'binary')`: one byte for each UTF-16 code unit of the
string, its low eight bits. -/
def binaryEncode (s : String) : Bytes :=
  (s.data.flatMap utf16Units).map (fun u => UInt8.ofNat (u % 256))

/-- Modelled from the spec: `sha256(message, {asBytes: true})` of the
`sha256` package, whose code is not under `src/`; the specification has the
client compute SHA-256 over the raw bytes of the signature.  Under Node the
package hashes a `Buffer` as its bytes and a string as
`new Buffer(message, 'binary')`, and fails with a `TypeError` on `undefined`
and `null`; any other message is left to the surroundings. -/
def sha256Message (env : Env) (message : JSValue) : Except Thrown Bytes :=
  match message with
  | .undefined => .error .typeError
  | .null => .error .typeError
  | .string s => .ok (sha256 (binaryEncode s))
  | .buffer b => .ok (sha256 b)
  | v => env.sha256Other v

/-- The raw bytes of a signature: the contents of a `Buffer`, or for a
string one byte for each UTF-16 code unit (`new Buffer(s, 'binary')`);
`none` for any other value. -/
def signatureBytes : JSValue → Option Bytes
  | .buffer b => some b
  | .string s => some (binaryEncode s)
  | _ => none

/-- The last `then` callback of `_sendTransaction`:
`sha256(txn.Transaction.Signature, ...)`, hexadecimal, first 16 characters. -/
def transactionId (env : Env) (txn : JSValue) : Except Thrown String :=
  match getProp txn "Transaction" with
  | .error e => .error e
  | .ok transaction =>
    match getProp transaction "Signature" with
    | .error e => .error e
    | .ok signature =>
      match sha256Message env signature with
      | .error e => .error e
      | .ok sha => .ok (String.mk ((hexEncode sha).take 16))

/-- The synchronous part of `_sendTransaction`: the four assertions, the
content type, the body `data` and the `postArgs` object.  `.error` is an
exception thrown before any request. -/
def postArguments (validatorHost validatorPort txnFamily txn : JSValue) :
    Except Thrown (RequestOptions × Data) :=
  if !truthy validatorHost then .error (.assertionError "'validatorHost' must be provided.")
  else if !truthy validatorPort then .error (.assertionError "'validatorPort' must be provided.")
  else if !truthy txnFamily then .error (.assertionError "'txnFamily' must be provided.")
  else if !truthy txn then .error (.assertionError "'txn' must be provided.")
  else
    let contentType := if isBuffer txn then "application/cbor" else "application/json"
    let data : Option Data :=
      match txn with
      | .buffer b => some (.buffer b)
      | .string s => some (.string s)
      | v => (jsonStringify v).map (fun text => Data.string (String.mk text))
    match data with
    | none => .error .typeError
    | some d =>
      .ok ({ hostname := validatorHost
             port := validatorPort
             path := txnFamily
             method := none
             headers := [("Content-Type", .string contentType),
               ("Content-Length", .number d.length)] }, d)

/-- `_sendTransaction(validatorHost, validatorPort, txnFamily, txn)`: the
request sent, if any, and how the returned promise ends. -/
def _sendTransaction (env : Env) (validatorHost validatorPort txnFamily txn : JSValue) :
    Option Exchange × Outcome JSValue :=
  match postArguments validatorHost validatorPort txnFamily txn with
  | .error e => (none, .thrown e)
  | .ok (postArgs, data) =>
    let sent := _post env postArgs data
    (some sent.1,
      match sent.2 with
      | .resolved result =>
        match _unwrapResponseBody result with
        | .error e => .rejected e
        | .ok body =>
          match transactionId env body with
          | .error e => .rejected e
          | .ok id => .resolved (.string id)
      | .rejected e => .rejected e
      | .thrown e => .thrown e
      | .unsettled => .unsettled)

/-- The value of `data` in `_sendTransaction`:
`(Buffer.isBuffer(txn) || typeof txn === 'string') ? txn : JSON.stringify(txn)`;
`none` is `undefined`. -/
def payloadData (txn : JSValue) : Option Data :=
  match txn with
  | .buffer b => some (.buffer b)
  | .string s => some (.string s)
  | v => (jsonStringify v).map (fun text => Data.string (String.mk text))

/-! ## Sample surroundings -/

/-- A response envelope whose `Transaction.Signature` is the buffer `abc`. -/
def sampleEnvelope : JSValue :=
  .object (.cons "Transaction" (.object (.cons "Signature" (.buffer [97, 98, 99]) .nil)) .nil)

/-- Surroundings in which every request is answered with status 200 and a
CBOR body that decodes to `sampleEnvelope`. -/
def sampleEnv : Env where
  network := fun _ _ => .response 200 [("content-type", "application/cbor")] [[0xA1]]
  cborDecodeFirst := fun _ => .ok sampleEnvelope
  jsonParse := fun _ => .error (.decode "Unexpected token")
  sha256Other := fun _ => .error .typeError

/-- Surroundings in which every request is answered with status 404 and an
empty body without content type. -/
def notFoundEnv : Env where
  network := fun _ _ => .response 404 [] []
  cborDecodeFirst := fun _ => .error (.decode "Insufficient data")
  jsonParse := fun _ => .error (.decode "Unexpected token")
  sha256Other := fun _ => .error .typeError

/-! ## The store queries `_getStoreApi` and the exported functions -/

/-- A store name or key argument: the documented type is `string`, and an
argument left out is `undefined` (or `null`). -/
inductive StoreArg where
  | undefined
  | null
  | string (s : String)
  deriving DecidableEq

/-- `_patherize(s)`: `s[0] == '/' ? s : ('/' + s)`. -/
def _patherize (s : String) : String :=
  if s.data.head? = some '/' then s else "/" ++ s

/-- The path `_getStoreApi` builds after its two assertions on host and
port; `.error` is a failed assertion.  `_.isEmpty` of a string tests for
length zero. -/
def storePath (storeName key : StoreArg) : Except Thrown String :=
  match storeName with
  | .undefined => .ok "/store"
  | .null => .ok "/store"
  | .string name =>
    if name.length = 0 then
      .error (.assertionError "'storeName' cannot be an empty string.")
    else
      match key with
      | .undefined => .ok ("/store" ++ _patherize name)
      | .null => .ok ("/store" ++ _patherize name)
      | .string k =>
        if k.length = 0 then
          .error (.assertionError "'key' cannot be an empty string.")
        else
          .ok ("/store" ++ _patherize name ++ _patherize k)

/-- The synchronous part of `_getStoreApi`: the assertions, the path and the
`getArgs` object.  `.error` is an exception thrown before any request. -/
def getArguments (validatorHost validatorPort : JSValue) (storeName key : StoreArg) :
    Except Thrown RequestOptions :=
  if !truthy validatorHost then .error (.assertionError "'validatorHost' must be provided.")
  else if !truthy validatorPort then .error (.assertionError "'validatorPort' must be provided.")
  else
    match storePath storeName key with
    | .error e => .error e
    | .ok path =>
      .ok { hostname := validatorHost
            port := validatorPort
            path := .string path
            method := none
            headers := [("Accept", .string "application/json")] }

/-- `_getStoreApi(validatorHost, validatorPort, storeName, key)`: the request
sent, if any, and how the returned promise ends. -/
def _getStoreApi (env : Env) (validatorHost validatorPort : JSValue)
    (storeName key : StoreArg) : Option Exchange × Outcome JSValue :=
  match getArguments validatorHost validatorPort storeName key with
  | .error e => (none, .thrown e)
  | .ok getArgs =>
    let sent := _get env getArgs
    (some sent.1,
      match sent.2 with
      | .resolved result =>
        match _unwrapResponseBody result with
        | .error e => .rejected e
        | .ok body => .resolved body
      | .rejected e => .rejected e
      | .thrown e => .thrown e
      | .unsettled => .unsettled)

/-- The exported `getStores(validatorHost, validatorPort)`. -/
def getStores (env : Env) (validatorHost validatorPort : JSValue) :
    Option Exchange × Outcome JSValue :=
  _getStoreApi env validatorHost validatorPort .undefined .undefined

/-- The exported `getStore(validatorHost, validatorPort, storeName)`. -/
def getStore (env : Env) (validatorHost validatorPort : JSValue) (storeName : StoreArg) :
    Option Exchange × Outcome JSValue :=
  _getStoreApi env validatorHost validatorPort storeName .undefined

/-- The exported `getStoreObjects(validatorHost, validatorPort, storeName)`. -/
def getStoreObjects (env : Env) (validatorHost validatorPort : JSValue)
    (storeName : StoreArg) : Option Exchange × Outcome JSValue :=
  _getStoreApi env validatorHost validatorPort storeName (.string "*")

/-- The exported `getStoreObject(validatorHost, validatorPort, storeName,
key)`: `assert(key != "*", ...)`, then `_getStoreApi`. -/
def getStoreObject (env : Env) (validatorHost validatorPort : JSValue)
    (storeName key : StoreArg) : Option Exchange × Outcome JSValue :=
  if key = .string "*" then
    (none, .thrown (.assertionError
      "Key should not be '*'.  Use getStoreObjects to retrieve all objects in the store"))
  else
    _getStoreApi env validatorHost validatorPort storeName key

/-- The path of the request a call sent, when it sent one and the path is a
string. -/
def requestPath (run : Option Exchange × Outcome JSValue) : Option String :=
  match run.1 with
  | some ex =>
    match ex.options.path with
    | .string p => some p
    | _ => none
  | none => none

/-- Whether a text contains two slashes in a row. -/
def hasDoubleSlash : List Char → Bool
  | a :: b :: rest => (a = '/' && b = '/') || hasDoubleSlash (b :: rest)
  | _ => false

/-- Whether a text ends with a slash. -/
def endsWithSlash (s : List Char) : Bool :=
  s.getLast? = some '/'

/-! ## Properties of the chunked writer -/

theorem CHUNK_SIZE_pos : 0 < CHUNK_SIZE := by decide

theorem bufferSlice_length (buffer : Bytes) (s e : Nat) :
    (bufferSlice buffer s e).length = min e buffer.length - s := by
  simp [bufferSlice]

theorem bufferSlice_append_drop (buffer : Bytes) (s e : Nat) (h : s ≤ e) :
    bufferSlice buffer s e ++ buffer.drop e = buffer.drop s := by
  have h1 : bufferSlice buffer s e = (buffer.drop s).take (e - s) := by
    unfold bufferSlice
    rw [List.drop_take]
  have h2 : buffer.drop e = (buffer.drop s).drop (e - s) := by
    rw [List.drop_drop]
    congr 1
    omega
  rw [h1, h2, List.take_append_drop]

theorem bufferSlice_pos_iff (buffer : Bytes) (a c : Nat) (hc : 0 < c) :
    0 < (bufferSlice buffer a (a + c)).length ↔ a < buffer.length := by
  rw [bufferSlice_length]; omega

theorem bufferSlice_length_le (buffer : Bytes) (a c : Nat) :
    (bufferSlice buffer a (a + c)).length ≤ c := by
  rw [bufferSlice_length]; omega

theorem bufferSlice_length_full (buffer : Bytes) (a c : Nat) (h : a + c ≤ buffer.length) :
    (bufferSlice buffer a (a + c)).length = c := by
  rw [bufferSlice_length]; omega

/-- Ceiling division gives zero once nothing is left. -/
theorem chunkCount_zero (n a c : Nat) (hc : 0 < c) (h : n ≤ a) :
    (n - a + c - 1) / c = 0 := by
  apply Nat.div_eq_of_lt
  omega

/-- Ceiling division counts one more chunk when bytes are left. -/
theorem chunkCount_succ (n a c : Nat) (hc : 0 < c) (h : a < n) :
    (n - a + c - 1) / c = (n - (a + c) + c - 1) / c + 1 := by
  by_cases hfull : a + c ≤ n
  · have : n - a + c - 1 = (n - (a + c) + c - 1) + c := by omega
    rw [this, Nat.add_div_right _ hc]
  · have h1 : (n - (a + c) + c - 1) / c = 0 := Nat.div_eq_of_lt (by omega)
    have h2 : n - a + c - 1 = (n - a - 1) + c := by omega
    rw [h1, h2, Nat.add_div_right _ hc, Nat.div_eq_of_lt (by omega)]

/-- Invariant of the write loop, started at chunk index `j` with `k + 1`
units of fuel: it stops, and the chunks it adds are the remaining bytes cut
into pieces of `CHUNK_SIZE`. -/
theorem writeLoop_inv (buffer : Bytes) :
    ∀ (k j : Nat) (written : List Bytes),
      buffer.length ≤ (j + k) * CHUNK_SIZE →
      ∃ rest : List Bytes,
        writeLoop buffer (k + 1)
            (bufferSlice buffer (j * CHUNK_SIZE) ((j + 1) * CHUNK_SIZE)) (j + 1) written
          = some (written ++ rest) ∧
        rest.flatten = buffer.drop (j * CHUNK_SIZE) ∧
        rest.length = (buffer.length - j * CHUNK_SIZE + CHUNK_SIZE - 1) / CHUNK_SIZE ∧
        (∀ c ∈ rest, 0 < c.length ∧ c.length ≤ CHUNK_SIZE) ∧
        (∀ c ∈ rest.dropLast, c.length = CHUNK_SIZE) := by
  intro k
  induction k with
  | zero =>
    intro j written hle
    rw [Nat.add_zero] at hle
    have hC := CHUNK_SIZE_pos
    have hmul : (j + 1) * CHUNK_SIZE = j * CHUNK_SIZE + CHUNK_SIZE := by ring
    have hlen : ¬ 0 < (bufferSlice buffer (j * CHUNK_SIZE) ((j + 1) * CHUNK_SIZE)).length := by
      rw [hmul, bufferSlice_pos_iff _ _ _ hC]; omega
    refine ⟨[], ?_, ?_, ?_, ?_, ?_⟩
    · rw [writeLoop, if_neg hlen]; simp
    · simp [List.drop_eq_nil_of_le hle]
    · rw [chunkCount_zero _ _ _ hC hle]; rfl
    · simp
    · simp
  | succ k ih =>
    intro j written hle
    have hC := CHUNK_SIZE_pos
    have hmul : (j + 1) * CHUNK_SIZE = j * CHUNK_SIZE + CHUNK_SIZE := by ring
    by_cases hpos : 0 < (bufferSlice buffer (j * CHUNK_SIZE) ((j + 1) * CHUNK_SIZE)).length
    · obtain ⟨rest, hrun, hjoin, hcount, hsize, hfull⟩ :=
        ih (j + 1) (written ++ [bufferSlice buffer (j * CHUNK_SIZE) ((j + 1) * CHUNK_SIZE)])
          (by rw [show j + 1 + k = j + (k + 1) by ring]; exact hle)
      have hgt : j * CHUNK_SIZE < buffer.length := by
        rw [hmul, bufferSlice_pos_iff _ _ _ hC] at hpos; exact hpos
      rw [hmul] at hcount
      refine ⟨bufferSlice buffer (j * CHUNK_SIZE) ((j + 1) * CHUNK_SIZE) :: rest,
        ?_, ?_, ?_, ?_, ?_⟩
      · rw [writeLoop, if_pos hpos, hrun]
        simp
      · rw [List.flatten_cons, hjoin]
        exact bufferSlice_append_drop buffer _ _ (by omega)
      · rw [List.length_cons, hcount, chunkCount_succ _ _ _ hC hgt]
      · intro c hc
        rcases List.mem_cons.mp hc with rfl | hc
        · exact ⟨hpos, by rw [hmul]; exact bufferSlice_length_le _ _ _⟩
        · exact hsize c hc
      · intro c hc
        cases rest with
        | nil => simp at hc
        | cons r rs =>
          rw [List.dropLast_cons₂] at hc
          rcases List.mem_cons.mp hc with rfl | hc
          · have hnext : j * CHUNK_SIZE + CHUNK_SIZE < buffer.length := by
              by_contra hlt
              rw [chunkCount_zero _ _ _ hC (Nat.le_of_not_lt hlt)] at hcount
              simp at hcount
            rw [hmul]
            exact bufferSlice_length_full _ _ _ (Nat.le_of_lt hnext)
          · exact hfull c hc
    · have hle' : buffer.length ≤ j * CHUNK_SIZE := by
        rw [hmul, bufferSlice_pos_iff _ _ _ hC] at hpos; omega
      refine ⟨[], ?_, ?_, ?_, ?_, ?_⟩
      · rw [writeLoop, if_neg hpos]; simp
      · simp [List.drop_eq_nil_of_le hle']
      · rw [chunkCount_zero _ _ _ hC hle']; rfl
      · simp
      · simp

/-- More fuel does not change the result of a write loop that finished. -/
theorem writeLoop_mono (buffer : Bytes) :
    ∀ (fuel : Nat) (chunk : Bytes) (i : Nat) (written result : List Bytes),
      writeLoop buffer fuel chunk i written = some result →
      ∀ k, writeLoop buffer (fuel + k) chunk i written = some result := by
  intro fuel
  induction fuel with
  | zero =>
    intro chunk i written result h
    simp [writeLoop] at h
  | succ fuel ih =>
    intro chunk i written result h k
    rw [show fuel + 1 + k = (fuel + k) + 1 by omega, writeLoop]
    rw [writeLoop] at h
    by_cases hpos : chunk.length > 0
    · rw [if_pos hpos] at h ⊢
      exact ih _ _ _ _ h k
    · rw [if_neg hpos] at h ⊢
      exact h

/-- The whole write loop, from its initial state: with more fuel than the
buffer has bytes it finishes, always with the same chunks, and these are the
buffer cut into pieces of `CHUNK_SIZE`. -/
theorem writeChunks_spec (buffer : Bytes) :
    ∃ chunks : List Bytes,
      (∀ k, writeChunks (buffer.length + 1 + k) buffer = some chunks) ∧
      chunks.flatten = buffer ∧
      chunks.length = (buffer.length + CHUNK_SIZE - 1) / CHUNK_SIZE ∧
      (∀ c ∈ chunks, 0 < c.length ∧ c.length ≤ CHUNK_SIZE) ∧
      (∀ c ∈ chunks.dropLast, c.length = CHUNK_SIZE) := by
  have hC := CHUNK_SIZE_pos
  have hle : buffer.length ≤ (0 + buffer.length) * CHUNK_SIZE := by
    rw [Nat.zero_add]
    calc buffer.length = buffer.length * 1 := (Nat.mul_one _).symm
      _ ≤ buffer.length * CHUNK_SIZE := Nat.mul_le_mul_left _ hC
  obtain ⟨rest, hrun, hjoin, hcount, hsize, hfull⟩ :=
    writeLoop_inv buffer buffer.length 0 [] hle
  refine ⟨rest, ?_, ?_, ?_, hsize, hfull⟩
  · intro k
    unfold writeChunks
    have h0 : writeLoop buffer (buffer.length + 1) (bufferSlice buffer 0 CHUNK_SIZE) 1 []
        = some rest := by
      simpa using hrun
    exact writeLoop_mono buffer _ _ _ _ _ h0 k
  · simpa using hjoin
  · simpa using hcount

/-- The chunks `_httpRequest` writes for a body: they exist, and put
together they are the bytes of the body, or nothing for a falsy body. -/
theorem writeBody_spec (d : Data) :
    ∃ chunks : List Bytes,
      writeBody (some d) = some chunks ∧
      chunks.flatten = (if d.truthy then d.toBuffer else []) := by
  unfold writeBody
  by_cases ht : d.truthy = true
  · obtain ⟨chunks, hrun, hflat, -⟩ := writeChunks_spec d.toBuffer
    refine ⟨chunks, ?_, ?_⟩
    · simp only [ht, if_true]
      exact hrun 0
    · simp only [ht, if_true]
      exact hflat
  · refine ⟨[], ?_, ?_⟩
    · simp [ht]
    · simp [ht]

/-! ## Properties of `split`, `join` and the sentinel pattern -/

theorem splitOn_ne_nil (sep : Char) (s : List Char) : splitOn sep s ≠ [] := by
  cases s with
  | nil => simp [splitOn]
  | cons c cs =>
    rw [splitOn]
    split
    · simp
    · split <;> simp

/-- Joining what `split` produced gives the string back. -/
theorem joinWith_splitOn (sep : Char) (s : List Char) : joinWith sep (splitOn sep s) = s := by
  induction s with
  | nil => rfl
  | cons c cs ih =>
    rw [splitOn]
    by_cases hc : c = sep
    · rw [if_pos hc]
      cases hsp : splitOn sep cs with
      | nil => exact absurd hsp (splitOn_ne_nil sep cs)
      | cons seg segs =>
        rw [hsp] at ih
        rw [joinWith, ih, hc]
        rfl
    · rw [if_neg hc]
      cases hsp : splitOn sep cs with
      | nil => exact absurd hsp (splitOn_ne_nil sep cs)
      | cons seg segs =>
        rw [hsp] at ih
        cases segs with
        | nil =>
          simp only [joinWith] at ih ⊢
          rw [ih]
        | cons x xs =>
          simp only [joinWith] at ih ⊢
          rw [← ih]
          rfl

/-- The first segment of `split` is the text before the first separator; the
other segments are the split of the text after it, and there are none when
the separator does not occur. -/
theorem splitOn_eq (sep : Char) (s : List Char) :
    splitOn sep s
      = s.takeWhile (fun c => c ≠ sep) ::
          (if sep ∈ s then splitOn sep ((s.dropWhile (fun c => c ≠ sep)).drop 1) else []) := by
  induction s with
  | nil => simp [splitOn]
  | cons c cs ih =>
    rw [splitOn]
    by_cases hc : c = sep
    · subst hc
      simp
    · rw [if_neg hc, ih]
      have hne : sep ≠ c := fun h => hc h.symm
      simp [hc, hne]

/-- What `msgs[0] ? msgs[0].trim() : null` computes, in terms of the body. -/
theorem errorTypeMessageOf_splitOn (s : List Char) :
    errorTypeMessageOf (splitOn ':' s)
      = if s.takeWhile (fun c => c ≠ ':') = [] then none
        else some (String.mk (trimChars (s.takeWhile (fun c => c ≠ ':')))) := by
  rw [splitOn_eq, errorTypeMessageOf]
  by_cases h : s.takeWhile (fun c => c ≠ ':') = []
  · rw [if_pos h, if_neg (not_not.mpr h)]
  · rw [if_neg h, if_pos h]

/-- What `msgs.length > 1 ? msgs.slice(1).join(':').trim() : null` computes,
in terms of the body. -/
theorem errorMessageOf_splitOn (s : List Char) :
    errorMessageOf (splitOn ':' s)
      = if ':' ∈ s then
          some (String.mk (trimChars ((s.dropWhile (fun c => c ≠ ':')).drop 1)))
        else none := by
  rw [splitOn_eq, errorMessageOf]
  by_cases h : ':' ∈ s
  · rw [if_pos h, if_pos h]
    have hlen : (s.takeWhile (fun c => c ≠ ':') ::
        splitOn ':' ((s.dropWhile (fun c => c ≠ ':')).drop 1)).length > 1 := by
      have := splitOn_ne_nil ':' ((s.dropWhile (fun c => c ≠ ':')).drop 1)
      rw [List.length_cons]
      have : 0 < (splitOn ':' ((s.dropWhile (fun c => c ≠ ':')).drop 1)).length :=
        List.length_pos.mpr this
      omega
    rw [if_pos hlen]
    simp only [List.drop_succ_cons, List.drop_zero]
    rw [joinWith_splitOn]
  · rw [if_neg h, if_neg h]
    simp

/-- A literal matches exactly when the input starts with it. -/
theorem matchLiteral_eq_some (lit s rest : List Char) :
    matchLiteral lit s = some rest ↔ s = lit ++ rest := by
  induction lit generalizing s with
  | nil => simp [matchLiteral, eq_comm]
  | cons l ls ih =>
    cases s with
    | nil => simp [matchLiteral]
    | cons c cs =>
      rw [matchLiteral]
      by_cases h : l = c
      · subst h
        simp [ih]
      · rw [if_neg h]
        simp
        intro h2
        exact absurd h2.symm h

/-- The sentinel pattern matches the strings that start with one of its two
expansions. -/
theorem sentinelMatches_of_begins (s : List Char)
    (h : "unable to decode incoming request".data <+: s
      ∨ "unabled to decode incoming request".data <+: s) :
    sentinelMatches s = true := by
  rcases h with ⟨rest, hrest⟩ | ⟨rest, hrest⟩
  · have h1 : matchLiteral "unable".data s
        = some (" to decode incoming request".data ++ rest) := by
      rw [matchLiteral_eq_some, ← hrest]; rfl
    have h2 : matchLiteral " to decode incoming request".data
        (" to decode incoming request".data ++ rest) = some rest := by
      rw [matchLiteral_eq_some]
    simp only [sentinelMatches, h1, h2, Option.isSome_some, Bool.or_true]
  · have h1 : matchLiteral "unable".data s
        = some ("d".data ++ (" to decode incoming request".data ++ rest)) := by
      rw [matchLiteral_eq_some, ← hrest]; rfl
    have h2 : matchLiteral "d".data ("d".data ++ (" to decode incoming request".data ++ rest))
        = some (" to decode incoming request".data ++ rest) := by
      rw [matchLiteral_eq_some]
    have h3 : matchLiteral " to decode incoming request".data
        (" to decode incoming request".data ++ rest) = some rest := by
      rw [matchLiteral_eq_some]
    simp only [sentinelMatches, h1, h2, h3, Option.isSome_some, Bool.true_or]

/-- On a string body the unwrapper's answer to status 400 is decided by the
sentinel pattern. -/
theorem unwrap_400_string (r : RawResult) (s : String)
    (hcode : r.statusCode = 400) (hbody : r.body = .string s) :
    _unwrapResponseBody r
      = if sentinelMatches s.data then .error (.error "Invalid Request: 400")
        else .error (.structured 400 (errorTypeMessageOf (splitOn ':' s.data))
          (errorMessageOf (splitOn ':' s.data))) := by
  unfold _unwrapResponseBody
  rw [hcode, hbody]
  simp only [sentinelExec, jsToString, callSplit]
  cases sentinelMatches s.data <;> rfl

/-! ## The response unwrapper: claims C3 to C7 -/

/-- C3: for a result with status code 400 whose string body does not match
the decode-failure pattern, `_unwrapResponseBody` throws the structured
error with `statusCode` 400, where `errorTypeMessage` is the trimmed text
before the first colon (`null` when the text before the first colon is
empty) and `errorMessage` is the trimmed text after the first colon, later
colons kept (`null` when the body has no colon). -/
theorem unwrap_400_structured_error (r : RawResult) (s : String)
    (hcode : r.statusCode = 400) (hbody : r.body = .string s)
    (hno : sentinelMatches s.data = false) :
    _unwrapResponseBody r
      = .error (.structured 400
          (if s.data.takeWhile (fun c => c ≠ ':') = [] then none
            else some (String.mk (trimChars (s.data.takeWhile (fun c => c ≠ ':')))))
          (if ':' ∈ s.data then
            some (String.mk (trimChars ((s.data.dropWhile (fun c => c ≠ ':')).drop 1)))
            else none)) := by
  rw [unwrap_400_string r s hcode hbody, hno, errorTypeMessageOf_splitOn,
    errorMessageOf_splitOn]
  rfl

/-- C3, at the body `TypeA: something broke`: the error type is `TypeA` and
the error message is `something broke`. -/
theorem unwrap_400_structured_error_witness :
    sentinelMatches "TypeA: something broke".data = false ∧
    _unwrapResponseBody ⟨.string "TypeA: something broke", [], 400⟩
      = .error (.structured 400 (some "TypeA") (some "something broke")) :=
  ⟨by decide,
    (unwrap_400_structured_error ⟨.string "TypeA: something broke", [], 400⟩
      "TypeA: something broke" rfl rfl (by decide)).trans (by decide)⟩

/-- C4 as stated fails: the body `Unable to decode incoming request` begins
with the sentinel text when compared case-insensitively, yet with status 400
the unwrapper throws the structured error, not the generic one. -/
theorem unwrap_400_sentinel_case_counterexample :
    beginsIgnoringCase "unable to decode incoming request".data
        "Unable to decode incoming request".data = true ∧
    _unwrapResponseBody ⟨.string "Unable to decode incoming request", [], 400⟩
      = .error (.structured 400 (some "Unable to decode incoming request") none) ∧
    _unwrapResponseBody ⟨.string "Unable to decode incoming request", [], 400⟩
      ≠ .error (.error "Invalid Request: 400") := by
  decide

/-- C4, amended: for a result with status code 400 whose string body begins
with exactly `unable to decode incoming request` or `unabled to decode
incoming request` (lower case; any text may follow), `_unwrapResponseBody`
throws the generic error `Invalid Request: 400` and no structured error. -/
theorem unwrap_400_sentinel_generic (r : RawResult) (s : String)
    (hcode : r.statusCode = 400) (hbody : r.body = .string s)
    (hpre : "unable to decode incoming request".data <+: s.data
      ∨ "unabled to decode incoming request".data <+: s.data) :
    _unwrapResponseBody r = .error (.error "Invalid Request: 400") ∧
    ∀ (code : Int) (ty msg : Option String),
      _unwrapResponseBody r ≠ .error (.structured code ty msg) := by
  have h : _unwrapResponseBody r = .error (.error "Invalid Request: 400") := by
    rw [unwrap_400_string r s hcode hbody, sentinelMatches_of_begins s.data hpre]
    rfl
  refine ⟨h, ?_⟩
  intro code ty msg hst
  rw [h] at hst
  cases hst

/-- C4, amended, at the bodies `unable to decode incoming request: bad
CBOR` and `unabled to decode incoming request`. -/
theorem unwrap_400_sentinel_generic_witness :
    _unwrapResponseBody ⟨.string "unable to decode incoming request: bad CBOR", [], 400⟩
      = .error (.error "Invalid Request: 400") ∧
    _unwrapResponseBody ⟨.string "unabled to decode incoming request", [], 400⟩
      = .error (.error "Invalid Request: 400") :=
  ⟨(unwrap_400_sentinel_generic
      ⟨.string "unable to decode incoming request: bad CBOR", [], 400⟩
      "unable to decode incoming request: bad CBOR" rfl rfl
      (Or.inl ⟨": bad CBOR".data, by decide⟩)).1,
    (unwrap_400_sentinel_generic
      ⟨.string "unabled to decode incoming request", [], 400⟩
      "unabled to decode incoming request" rfl rfl
      (Or.inr ⟨[], by decide⟩)).1⟩

/-- C5: for a result with status code 404, `_unwrapResponseBody` returns
`null` and throws nothing, whatever the body and the headers are. -/
theorem unwrap_404_null (body : JSValue) (headers : List (String × String)) :
    _unwrapResponseBody ⟨body, headers, 404⟩ = .ok .null := by
  rfl

/-- C6: for a result with status code 200, `_unwrapResponseBody` returns
the body itself and throws nothing, whatever the body is. -/
theorem unwrap_200_body (body : JSValue) (headers : List (String × String)) :
    _unwrapResponseBody ⟨body, headers, 200⟩ = .ok body := by
  rfl

/-- C7: for a result whose status code is none of 200, 404 and 400,
`_unwrapResponseBody` throws the generic error whose message is `Invalid
Request: ` followed by the status code; it returns no value and throws no
error of the structured kind.  For any result at all, the structured error
comes with status code 400 only. -/
theorem unwrap_other_generic (r : RawResult)
    (h200 : r.statusCode ≠ 200) (h404 : r.statusCode ≠ 404) (h400 : r.statusCode ≠ 400) :
    _unwrapResponseBody r
      = .error (.error ("Invalid Request: " ++ toString r.statusCode)) ∧
    (∀ v : JSValue, _unwrapResponseBody r ≠ .ok v) ∧
    (∀ (code : Int) (ty msg : Option String),
      _unwrapResponseBody r ≠ .error (.structured code ty msg)) ∧
    (∀ (r2 : RawResult) (code : Int) (ty msg : Option String),
      _unwrapResponseBody r2 = .error (.structured code ty msg) →
        r2.statusCode = 400 ∧ code = 400) := by
  have h : _unwrapResponseBody r
      = .error (.error ("Invalid Request: " ++ toString r.statusCode)) := by
    unfold _unwrapResponseBody
    rw [if_neg h200, if_neg h404, if_neg h400]
  refine ⟨h, ?_, ?_, ?_⟩
  · intro v hv
    rw [h] at hv
    cases hv
  · intro code ty msg hst
    rw [h] at hst
    cases hst
  · intro r2 code ty msg hst
    unfold _unwrapResponseBody at hst
    by_cases c200 : r2.statusCode = 200
    · rw [if_pos c200] at hst
      cases hst
    · rw [if_neg c200] at hst
      by_cases c404 : r2.statusCode = 404
      · rw [if_pos c404] at hst
        cases hst
      · rw [if_neg c404] at hst
        by_cases c400 : r2.statusCode = 400
        · refine ⟨c400, ?_⟩
          rw [if_pos c400] at hst
          cases hex : sentinelExec r2.body with
          | error e =>
            rw [hex] at hst
            have he : e = .typeError := by
              unfold sentinelExec at hex
              cases hts : jsToString r2.body with
              | none => rw [hts] at hex; cases hex; rfl
              | some t => rw [hts] at hex; cases hex
            rw [he] at hst
            cases hst
          | ok b =>
            rw [hex] at hst
            cases b with
            | true => cases hst
            | false =>
              cases hsp : callSplit r2.body with
              | error e =>
                rw [hsp] at hst
                have he : e = .typeError := by
                  unfold callSplit at hsp
                  cases hb : r2.body <;> rw [hb] at hsp <;> cases hsp <;> rfl
                rw [he] at hst
                cases hst
              | ok msgs =>
                rw [hsp] at hst
                cases hst
                rfl
        · rw [if_neg c400] at hst
          cases hst

/-- C7, at status code 500 with an empty text body. -/
theorem unwrap_other_generic_witness :
    _unwrapResponseBody ⟨.string "", [], 500⟩ = .error (.error "Invalid Request: 500") :=
  (unwrap_other_generic ⟨.string "", [], 500⟩ (by decide) (by decide) (by decide)).1

/-! ## The chunked writer: claims C1 and C2 -/

/-- C1: for every byte payload `P` the write loop, with chunk size 10240 and
any fuel above the length of `P`, finishes; the chunks passed to `req.write`,
concatenated in write order, are exactly `P`; their number is the ceiling of
`len(P) / 10240` (that is `n` with `len(P) ≤ n * 10240 < len(P) + 10240`),
which is 0 for the empty payload; and these are the chunks `_httpRequest`
writes for the buffer `P`. -/
theorem write_loop_concat_and_count (P : Bytes) :
    CHUNK_SIZE = 10240 ∧
    ∃ chunks : List Bytes,
      (∀ k, writeChunks (P.length + 1 + k) P = some chunks) ∧
      chunks.flatten = P ∧
      chunks.length = (P.length + 10240 - 1) / 10240 ∧
      P.length ≤ chunks.length * 10240 ∧
      chunks.length * 10240 < P.length + 10240 ∧
      (P = [] → chunks.length = 0) ∧
      (∀ (env : Env) (options : RequestOptions),
        (_httpRequest env options (some (.buffer P))).1.written = chunks) := by
  refine ⟨rfl, ?_⟩
  obtain ⟨chunks, hrun, hflat, hcount, -, -⟩ := writeChunks_spec P
  have hcount2 : chunks.length = (P.length + 10240 - 1) / 10240 := hcount
  refine ⟨chunks, hrun, hflat, hcount2, ?_, ?_, ?_, ?_⟩
  · omega
  · omega
  · intro hP
    rw [hcount2, hP]
    rfl
  · intro env options
    have h0 := hrun 0
    simp only [Nat.add_zero] at h0
    simp only [_httpRequest, writeBody, Data.truthy, Data.toBuffer, if_true, h0]

/-- C2: every chunk the write loop passes to `req.write` is non-empty and at
most 10240 bytes long, and every chunk except the last is exactly 10240
bytes long. -/
theorem write_loop_chunk_sizes (P : Bytes) :
    ∃ chunks : List Bytes,
      (∀ k, writeChunks (P.length + 1 + k) P = some chunks) ∧
      (∀ c ∈ chunks, 0 < c.length ∧ c.length ≤ 10240) ∧
      (∀ c ∈ chunks.dropLast, c.length = 10240) := by
  obtain ⟨chunks, hrun, -, -, hsize, hfull⟩ := writeChunks_spec P
  exact ⟨chunks, hrun, hsize, hfull⟩

/-! ## The transaction submitter: claims C8 to C10 -/

theorem sha256_length (msg : Bytes) : (sha256 msg).length = 32 := by
  simp [sha256, wordBytes]

theorem hexEncode_length (b : Bytes) : (hexEncode b).length = 2 * b.length := by
  induction b with
  | nil => rfl
  | cons x xs ih =>
    simp only [hexEncode, List.flatMap_cons, List.length_append, List.length_cons,
      List.length_nil] at ih ⊢
    omega

theorem hexDigit_mem (n : Nat) (h : n < 16) : hexDigit n ∈ "0123456789abcdef".data := by
  interval_cases n <;> decide

theorem hexEncode_mem (b : Bytes) (c : Char) (h : c ∈ hexEncode b) :
    c ∈ "0123456789abcdef".data := by
  simp only [hexEncode, List.mem_flatMap, List.mem_cons, List.mem_singleton] at h
  obtain ⟨x, -, hx⟩ := h
  have hlt : x.toNat < 256 := x.val.isLt
  rcases hx with rfl | rfl | hx
  · exact hexDigit_mem _ (by omega)
  · exact hexDigit_mem _ (by omega)
  · simp at hx

/-- The bytes the `sha256` call hashes for a signature that is a `Buffer` or
a string. -/
theorem sha256Message_bytes (env : Env) (sig : JSValue) (S : Bytes)
    (h : signatureBytes sig = some S) : sha256Message env sig = .ok (sha256 S) := by
  cases sig <;> simp [signatureBytes] at h <;> subst h <;> rfl

/-- The identifier computed from an envelope whose signature has bytes `S`. -/
theorem transactionId_of_signature (env : Env) (envelope transaction sig : JSValue)
    (S : Bytes)
    (htx : getProp envelope "Transaction" = .ok transaction)
    (hsig : getProp transaction "Signature" = .ok sig)
    (hS : signatureBytes sig = some S) :
    transactionId env envelope = .ok (String.mk ((hexEncode (sha256 S)).take 16)) := by
  unfold transactionId
  rw [htx]
  simp only
  rw [hsig]
  simp only
  rw [sha256Message_bytes env sig S hS]

/-- The outcome of `_sendTransaction` when the response unwraps to an
envelope whose signature has bytes `S`. -/
theorem sendTransaction_of_signature (env : Env)
    (host port family txn : JSValue) (postArgs : RequestOptions) (data : Data)
    (result : RawResult) (envelope transaction sig : JSValue) (S : Bytes)
    (hargs : postArguments host port family txn = .ok (postArgs, data))
    (hpost : (_post env postArgs data).2 = .resolved result)
    (hunwrap : _unwrapResponseBody result = .ok envelope)
    (htx : getProp envelope "Transaction" = .ok transaction)
    (hsig : getProp transaction "Signature" = .ok sig)
    (hS : signatureBytes sig = some S) :
    (_sendTransaction env host port family txn).2
      = .resolved (.string (String.mk ((hexEncode (sha256 S)).take 16))) := by
  unfold _sendTransaction
  rw [hargs]
  simp only
  rw [hpost]
  simp only
  rw [hunwrap]
  simp only
  rw [transactionId_of_signature env envelope transaction sig S htx hsig hS]

set_option maxRecDepth 100000

/-- The model of SHA-256 on the test vector `abc` of FIPS 180-4. -/
theorem sha256_abc :
    String.mk (hexEncode (sha256 [97, 98, 99]))
      = "ba7816bf8f01cfea414140de5dae2223b00361a396177a9cb410ff61f20015ad" := by
  decide

/-- The synchronous part of `_sendTransaction` when its four assertions
hold. -/
theorem postArguments_of_truthy (host port family txn : JSValue)
    (hhost : truthy host = true) (hport : truthy port = true)
    (hfamily : truthy family = true) (htxn : truthy txn = true) :
    postArguments host port family txn
      = match (match txn with
          | .buffer b => some (Data.buffer b)
          | .string s => some (Data.string s)
          | v => (jsonStringify v).map (fun text => Data.string (String.mk text))) with
        | none => .error .typeError
        | some d =>
          .ok ({ hostname := host
                 port := port
                 path := family
                 method := none
                 headers := [("Content-Type",
                    .string (if isBuffer txn then "application/cbor" else "application/json")),
                   ("Content-Length", .number d.length)] }, d) := by
  unfold postArguments
  simp only [hhost, hport, hfamily, htxn, Bool.not_true, Bool.false_eq_true, if_false]

/-- C8: when the response of `_sendTransaction` unwraps to an envelope whose
`Transaction.Signature` has raw bytes `S` (the contents of a `Buffer`, or
one byte for each UTF-16 code unit of a string), the promise is resolved
with the first 16 characters of the lower-case hexadecimal encoding of
SHA-256 of `S`; that identifier has 16 characters, each in `0-9a-f`; and any other
call, with other surroundings, host, port, family, payload and envelope but
the same signature bytes, is resolved with the same identifier. -/
theorem sendTransaction_identifier (env : Env)
    (host port family txn : JSValue) (postArgs : RequestOptions) (data : Data)
    (result : RawResult) (envelope transaction sig : JSValue) (S : Bytes)
    (hargs : postArguments host port family txn = .ok (postArgs, data))
    (hpost : (_post env postArgs data).2 = .resolved result)
    (hunwrap : _unwrapResponseBody result = .ok envelope)
    (htx : getProp envelope "Transaction" = .ok transaction)
    (hsig : getProp transaction "Signature" = .ok sig)
    (hS : signatureBytes sig = some S) :
    (_sendTransaction env host port family txn).2
      = .resolved (.string (String.mk ((hexEncode (sha256 S)).take 16))) ∧
    (String.mk ((hexEncode (sha256 S)).take 16)).length = 16 ∧
    (∀ c ∈ (String.mk ((hexEncode (sha256 S)).take 16)).data,
      c ∈ "0123456789abcdef".data) ∧
    (∀ (env2 : Env) (host2 port2 family2 txn2 : JSValue) (postArgs2 : RequestOptions)
      (data2 : Data) (result2 : RawResult) (envelope2 transaction2 sig2 : JSValue),
      postArguments host2 port2 family2 txn2 = .ok (postArgs2, data2) →
      (_post env2 postArgs2 data2).2 = .resolved result2 →
      _unwrapResponseBody result2 = .ok envelope2 →
      getProp envelope2 "Transaction" = .ok transaction2 →
      getProp transaction2 "Signature" = .ok sig2 →
      signatureBytes sig2 = some S →
      (_sendTransaction env2 host2 port2 family2 txn2).2
        = (_sendTransaction env host port family txn).2) := by
  have h1 := sendTransaction_of_signature env host port family txn postArgs data result
    envelope transaction sig S hargs hpost hunwrap htx hsig hS
  refine ⟨h1, ?_, ?_, ?_⟩
  · show ((hexEncode (sha256 S)).take 16).length = 16
    rw [List.length_take, hexEncode_length, sha256_length]
    rfl
  · intro c hc
    exact hexEncode_mem (sha256 S) c (List.mem_of_mem_take hc)
  · intro env2 host2 port2 family2 txn2 postArgs2 data2 result2 envelope2 transaction2 sig2
      hargs2 hpost2 hunwrap2 htx2 hsig2 hS2
    rw [h1]
    exact sendTransaction_of_signature env2 host2 port2 family2 txn2 postArgs2 data2 result2
      envelope2 transaction2 sig2 S hargs2 hpost2 hunwrap2 htx2 hsig2 hS2

/-- C8, at a one-byte CBOR payload sent to `localhost:8800/mktplace` and
answered with an envelope whose signature is the buffer `abc`: the
identifier is `ba7816bf8f01cfea`. -/
theorem sendTransaction_identifier_witness :
    (_sendTransaction sampleEnv (.string "localhost") (.number 8800) (.string "/mktplace")
        (.buffer [0x01])).2
      = .resolved (.string "ba7816bf8f01cfea") :=
  (sendTransaction_identifier sampleEnv (.string "localhost") (.number 8800)
      (.string "/mktplace") (.buffer [0x01])
      { hostname := .string "localhost", port := .number 8800, path := .string "/mktplace",
        method := none,
        headers := [("Content-Type", .string "application/cbor"),
          ("Content-Length", .number 1)] }
      (.buffer [0x01])
      ⟨sampleEnvelope, [("content-type", "application/cbor")], 200⟩
      sampleEnvelope
      (.object (.cons "Signature" (.buffer [97, 98, 99]) .nil))
      (.buffer [97, 98, 99]) [97, 98, 99]
      rfl rfl rfl rfl rfl rfl).1.trans (by decide)

/-- The identifier for a string signature: `é` is hashed as the single byte
`e9`, not as its UTF-8 encoding. -/
theorem transactionId_string_signature :
    binaryEncode "é" = [0xE9] ∧
    transactionId sampleEnv
        (.object (.cons "Transaction" (.object (.cons "Signature" (.string "é") .nil)) .nil))
      = .ok "de2e331d891ae267" := by
  decide

/-- C9, at the string payload `é`: the request carries `Content-Length` 1,
the `length` of the string, while the body written has the two bytes
`c3 a9`. -/
theorem sendTransaction_contentLength_nonAscii (env : Env) :
    ∃ ex : Exchange,
      (_sendTransaction env (.string "localhost") (.number 8800) (.string "/mktplace")
        (.string "é")).1 = some ex ∧
      ex.options.headers.lookup "Content-Length" = some (.number 1) ∧
      ex.written = [[0xC3, 0xA9]] ∧
      ex.written.flatten.length = 2 :=
  ⟨_, rfl, rfl, rfl, rfl⟩

/-- The request `_sendTransaction` sends is the one `_post` sends for the
arguments built by the synchronous part. -/
theorem sendTransaction_exchange (env : Env) (host port family txn : JSValue)
    (postArgs : RequestOptions) (data : Data)
    (hargs : postArguments host port family txn = .ok (postArgs, data)) :
    (_sendTransaction env host port family txn).1 = some (_post env postArgs data).1 := by
  unfold _sendTransaction
  rw [hargs]

/-- For a binary payload the `Content-Length` header is the number of bytes
written: the part of C9 the code fulfils. -/
theorem sendTransaction_contentLength_buffer (env : Env) (host port family : JSValue)
    (b : Bytes) (hhost : truthy host = true) (hport : truthy port = true)
    (hfamily : truthy family = true) :
    ∃ ex : Exchange,
      (_sendTransaction env host port family (.buffer b)).1 = some ex ∧
      ex.options.headers.lookup "Content-Length" = some (.number b.length) ∧
      ex.written.flatten.length = b.length := by
  obtain ⟨chunks, hrun, hflat⟩ := writeBody_spec (.buffer b)
  have hargs := postArguments_of_truthy host port family (.buffer b) hhost hport hfamily rfl
  simp only at hargs
  refine ⟨_, sendTransaction_exchange env host port family _ _ _ hargs, ?_, ?_⟩
  · simp only [_post, _httpRequest, hrun]
    rfl
  · simp only [_post, _httpRequest, hrun, hflat]
    rfl

/-- C10 as stated fails: for the payload with the single property `x` of
value 1 the `Content-Length` header is 7, the length of the seven-character
JSON text, and not 8. -/
theorem sendTransaction_json_contentLength_counterexample :
    ((_sendTransaction sampleEnv (.string "localhost") (.number 8800) (.string "/mktplace")
        (.object (.cons "x" (.number 1) .nil))).1.map
          (fun ex => ex.options.headers.lookup "Content-Length"))
      = some (some (.number 7)) ∧
    ((_sendTransaction sampleEnv (.string "localhost") (.number 8800) (.string "/mktplace")
        (.object (.cons "x" (.number 1) .nil))).1.map
          (fun ex => ex.options.headers.lookup "Content-Length"))
      ≠ some (some (.number 8)) ∧
    "\x7b\"x\":1\x7d".length = 7 := by
  decide

/-- C10, amended: submitting the structured payload with the single
property `x` of value 1 through `_sendTransaction` builds a request whose
`Content-Type` header is `application/json`, whose body is the literal JSON
text of seven characters, written as its seven bytes, and whose
`Content-Length` header is 7. -/
theorem sendTransaction_json_request (env : Env) (host port family : JSValue)
    (hhost : truthy host = true) (hport : truthy port = true)
    (hfamily : truthy family = true) :
    ∃ ex : Exchange,
      (_sendTransaction env host port family (.object (.cons "x" (.number 1) .nil))).1
        = some ex ∧
      ex.options.headers.lookup "Content-Type" = some (.string "application/json") ∧
      ex.data = some (.string "\x7b\"x\":1\x7d") ∧
      ex.options.headers.lookup "Content-Length" = some (.number 7) ∧
      ex.written = [utf8Encode "\x7b\"x\":1\x7d"] := by
  have hargs := postArguments_of_truthy host port family
    (.object (.cons "x" (.number 1) .nil)) hhost hport hfamily rfl
  exact ⟨_, sendTransaction_exchange env host port family _ _ _ hargs, rfl, rfl, rfl, rfl⟩

/-- C10, amended, at `localhost`, port 8800 and family `/mktplace`. -/
theorem sendTransaction_json_request_witness :
    ∃ ex : Exchange,
      (_sendTransaction sampleEnv (.string "localhost") (.number 8800) (.string "/mktplace")
        (.object (.cons "x" (.number 1) .nil))).1 = some ex ∧
      ex.options.headers.lookup "Content-Type" = some (.string "application/json") ∧
      ex.data = some (.string "\x7b\"x\":1\x7d") ∧
      ex.options.headers.lookup "Content-Length" = some (.number 7) ∧
      ex.written = [utf8Encode "\x7b\"x\":1\x7d"] :=
  sendTransaction_json_request sampleEnv (.string "localhost") (.number 8800)
    (.string "/mktplace") rfl rfl rfl

/-! ## The transaction submitter: claims C11, C15 and C17 -/

/-- The first component of `_httpRequest` records the options and the body
it was called with. -/
theorem httpRequest_sent (env : Env) (options : RequestOptions) (data : Option Data) :
    (_httpRequest env options data).1.options = options ∧
    (_httpRequest env options data).1.data = data := by
  unfold _httpRequest
  cases writeBody data <;> exact ⟨rfl, rfl⟩

/-- `JSON.stringify` gives a text for every value but `undefined`. -/
theorem jsonStringify_isSome (v : JSValue) (h : v ≠ .undefined) :
    ∃ text, jsonStringify v = some text := by
  cases v with
  | undefined => exact absurd rfl h
  | null => exact ⟨_, rfl⟩
  | bool b => exact ⟨_, rfl⟩
  | number n => exact ⟨_, rfl⟩
  | string s => exact ⟨_, rfl⟩
  | buffer b => exact ⟨_, rfl⟩
  | array xs => exact ⟨_, rfl⟩
  | object ps => exact ⟨_, rfl⟩

/-- The synchronous part of `_sendTransaction` in terms of `payloadData`. -/
theorem postArguments_data (host port family txn : JSValue) (d : Data)
    (hhost : truthy host = true) (hport : truthy port = true)
    (hfamily : truthy family = true) (htxn : truthy txn = true)
    (hd : payloadData txn = some d) :
    postArguments host port family txn
      = .ok ({ hostname := host
               port := port
               path := family
               method := none
               headers := [("Content-Type",
                   .string (if isBuffer txn then "application/cbor" else "application/json")),
                 ("Content-Length", .number d.length)] }, d) := by
  have hargs := postArguments_of_truthy host port family txn hhost hport hfamily htxn
  rw [hargs]
  cases txn <;> simp only [payloadData] at hd <;> first
    | (cases hd; rfl)
    | simp only [hd]

/-- An accepted payload has a body: `JSON.stringify` is `undefined` on
`undefined` only. -/
theorem payloadData_isSome (txn : JSValue) (htxn : truthy txn = true) :
    ∃ d : Data, payloadData txn = some d := by
  cases txn with
  | undefined => cases htxn
  | null => cases htxn
  | bool b => exact ⟨_, rfl⟩
  | number n => exact ⟨_, rfl⟩
  | string s => exact ⟨_, rfl⟩
  | buffer b => exact ⟨_, rfl⟩
  | array xs => exact ⟨_, rfl⟩
  | object ps => exact ⟨_, rfl⟩

/-- The request `_sendTransaction` sends when its assertions hold. -/
theorem sendTransaction_request (env : Env) (host port family txn : JSValue) (d : Data)
    (hhost : truthy host = true) (hport : truthy port = true)
    (hfamily : truthy family = true) (htxn : truthy txn = true)
    (hd : payloadData txn = some d) :
    ∃ ex : Exchange,
      (_sendTransaction env host port family txn).1 = some ex ∧
      ex.options
        = { hostname := host
            port := port
            path := family
            method := some "POST"
            headers := [("Content-Type",
                .string (if isBuffer txn then "application/cbor" else "application/json")),
              ("Content-Length", .number d.length)] } ∧
      ex.data = some d := by
  have hargs := postArguments_data host port family txn d hhost hport hfamily htxn hd
  refine ⟨_, sendTransaction_exchange env host port family txn _ _ hargs, ?_, ?_⟩
  · exact (httpRequest_sent env _ _).1
  · exact (httpRequest_sent env _ _).2

/-- C11: for every accepted payload the `Content-Type` header is
`application/cbor` exactly when the payload is a buffer and
`application/json` otherwise; a buffer or a string payload is the body
unchanged, and any other payload is sent as its `JSON.stringify` text. -/
theorem sendTransaction_content_type (env : Env) (host port family txn : JSValue)
    (hhost : truthy host = true) (hport : truthy port = true)
    (hfamily : truthy family = true) (htxn : truthy txn = true) :
    ∃ ex : Exchange,
      (_sendTransaction env host port family txn).1 = some ex ∧
      (ex.options.headers.lookup "Content-Type" = some (.string "application/cbor")
        ↔ isBuffer txn = true) ∧
      (isBuffer txn = false →
        ex.options.headers.lookup "Content-Type" = some (.string "application/json")) ∧
      (∀ b, txn = .buffer b → ex.data = some (.buffer b)) ∧
      (∀ s, txn = .string s → ex.data = some (.string s)) ∧
      (isBuffer txn = false → isString txn = false →
        ∃ text, jsonStringify txn = some text ∧
          ex.data = some (.string (String.mk text))) := by
  obtain ⟨d, hd⟩ := payloadData_isSome txn htxn
  obtain ⟨ex, hex, hopts, hdata⟩ :=
    sendTransaction_request env host port family txn d hhost hport hfamily htxn hd
  refine ⟨ex, hex, ?_, ?_, ?_, ?_, ?_⟩
  · rw [hopts]
    cases hb : isBuffer txn
    · simp only [Bool.false_eq_true, if_false, iff_false]
      intro h
      have hjson : List.lookup "Content-Type"
          [("Content-Type", JSValue.string "application/json"),
            ("Content-Length", JSValue.number d.length)]
          = some (.string "application/json") := rfl
      rw [hjson] at h
      revert h
      decide
    · simp only [if_true, iff_true]
      rfl
  · intro hb
    rw [hopts, hb]
    rfl
  · intro b hb
    rw [hdata, ← hd, hb]
    rfl
  · intro s hs
    rw [hdata, ← hd, hs]
    rfl
  · intro hb hs
    have hdef : txn ≠ .undefined := by
      intro h
      rw [h] at htxn
      cases htxn
    obtain ⟨text, htext⟩ := jsonStringify_isSome txn hdef
    refine ⟨text, htext, ?_⟩
    rw [hdata, ← hd]
    cases txn with
    | buffer b => cases hb
    | string s => cases hs
    | undefined => exact absurd rfl hdef
    | null => simp only [payloadData, htext]; rfl
    | bool b => simp only [payloadData, htext]; rfl
    | number n => simp only [payloadData, htext]; rfl
    | array xs => simp only [payloadData, htext]; rfl
    | object ps => simp only [payloadData, htext]; rfl

/-- C11, at a two-byte buffer payload: the content type is
`application/cbor` and the body is the buffer. -/
theorem sendTransaction_content_type_witness :
    ∃ ex : Exchange,
      (_sendTransaction sampleEnv (.string "localhost") (.number 8800) (.string "/mktplace")
        (.buffer [0x01, 0x02])).1 = some ex ∧
      ex.options.headers.lookup "Content-Type" = some (.string "application/cbor") ∧
      ex.data = some (.buffer [0x01, 0x02]) := by
  obtain ⟨ex, hex, hct, -, hbuf, -, -⟩ :=
    sendTransaction_content_type sampleEnv (.string "localhost") (.number 8800)
      (.string "/mktplace") (.buffer [0x01, 0x02]) rfl rfl rfl rfl
  exact ⟨ex, hex, hct.mpr rfl, hbuf _ rfl⟩

/-- C15 as stated fails: a zero-length buffer payload is accepted; the
request is sent with `Content-Length` 0 and no assertion fails. -/
theorem sendTransaction_empty_buffer_counterexample :
    (_sendTransaction sampleEnv (.string "localhost") (.number 8800) (.string "/mktplace")
        (.buffer [])).1
      = some ⟨{ hostname := .string "localhost", port := .number 8800,
                path := .string "/mktplace", method := some "POST",
                headers := [("Content-Type", .string "application/cbor"),
                  ("Content-Length", .number 0)] },
              some (.buffer []), []⟩ ∧
    (_sendTransaction sampleEnv (.string "localhost") (.number 8800) (.string "/mktplace")
        (.buffer [])).2
      = .resolved (.string "ba7816bf8f01cfea") := by
  decide

/-- C15, amended: when any of host, port, family or payload is `null`,
`undefined` or the empty string, `_sendTransaction` throws an assertion
error and sends no request. -/
theorem sendTransaction_missing_argument (env : Env) (host port family txn : JSValue)
    (h : isMissing host = true ∨ isMissing port = true ∨ isMissing family = true
      ∨ isMissing txn = true) :
    ∃ message : String,
      _sendTransaction env host port family txn = (none, .thrown (.assertionError message)) := by
  have hfalsy : ∀ v : JSValue, isMissing v = true → truthy v = false := by
    intro v hv
    simp only [isMissing, Bool.or_eq_true, decide_eq_true_eq] at hv
    rcases hv with (rfl | rfl) | rfl <;> rfl
  unfold _sendTransaction postArguments
  by_cases hhost : truthy host = true
  · by_cases hport : truthy port = true
    · by_cases hfamily : truthy family = true
      · have htxn : truthy txn = false := by
          rcases h with h | h | h | h
          · rw [hfalsy host h] at hhost; cases hhost
          · rw [hfalsy port h] at hport; cases hport
          · rw [hfalsy family h] at hfamily; cases hfamily
          · exact hfalsy txn h
        exact ⟨"'txn' must be provided.", by simp [hhost, hport, hfamily, htxn]⟩
      · exact ⟨"'txnFamily' must be provided.", by simp [hhost, hport, hfamily]⟩
    · exact ⟨"'validatorPort' must be provided.", by simp [hhost, hport]⟩
  · exact ⟨"'validatorHost' must be provided.", by simp [hhost]⟩

/-- C15, amended, at an `undefined` payload. -/
theorem sendTransaction_missing_argument_witness :
    ∃ message : String,
      _sendTransaction sampleEnv (.string "localhost") (.number 8800) (.string "/mktplace")
        .undefined = (none, .thrown (.assertionError message)) :=
  sendTransaction_missing_argument sampleEnv (.string "localhost") (.number 8800)
    (.string "/mktplace") .undefined (Or.inr (Or.inr (Or.inr rfl)))

/-- C17: for every accepted call the request handed to the transport has
method `POST`, the given host as `hostname`, the given port, the family
value itself as `path`, and exactly the two headers `Content-Type` and
`Content-Length`. -/
theorem sendTransaction_descriptor (env : Env) (host port family txn : JSValue)
    (hhost : truthy host = true) (hport : truthy port = true)
    (hfamily : truthy family = true) (htxn : truthy txn = true) :
    ∃ ex : Exchange,
      (_sendTransaction env host port family txn).1 = some ex ∧
      ex.options.method = some "POST" ∧
      ex.options.hostname = host ∧
      ex.options.port = port ∧
      ex.options.path = family ∧
      ex.options.headers.map Prod.fst = ["Content-Type", "Content-Length"] := by
  obtain ⟨d, hd⟩ := payloadData_isSome txn htxn
  obtain ⟨ex, hex, hopts, -⟩ :=
    sendTransaction_request env host port family txn d hhost hport hfamily htxn hd
  refine ⟨ex, hex, ?_, ?_, ?_, ?_, ?_⟩
  · rw [hopts]
  · rw [hopts]
  · rw [hopts]
  · rw [hopts]
  · rw [hopts]
    rfl

/-- C17, at the family `/mktplace` and a string payload. -/
theorem sendTransaction_descriptor_witness :
    ∃ ex : Exchange,
      (_sendTransaction sampleEnv (.string "localhost") (.number 8800) (.string "/mktplace")
        (.string "abc")).1 = some ex ∧
      ex.options.method = some "POST" ∧
      ex.options.hostname = .string "localhost" ∧
      ex.options.port = .number 8800 ∧
      ex.options.path = .string "/mktplace" ∧
      ex.options.headers.map Prod.fst = ["Content-Type", "Content-Length"] :=
  sendTransaction_descriptor sampleEnv (.string "localhost") (.number 8800)
    (.string "/mktplace") (.string "abc") rfl rfl rfl rfl

/-! ## Decoding and failures: claims C16, C19 and C20 -/

/-- C16: for a response whose `content-type` header is exactly
`application/json` and whose accumulated body is empty, decoding resolves
with the body `null` for every status code and whatever `JSON.parse` would
do (it is not called); for a response whose `content-type` header is absent
or anything but `application/cbor` and `application/json`, the decoded body
is the raw body text.  The same holds for the promise of `_get` when the
network answers so. -/
theorem decode_empty_json_and_raw_text (env : Env) (statusCode : Int)
    (headers : List (String × String)) (buffer : Bytes) :
    (headers.lookup "content-type" = some "application/json" → buffer = [] →
      decodeResponse env statusCode headers buffer = .resolved ⟨.null, headers, statusCode⟩ ∧
      ∀ env2 : Env, decodeResponse env2 statusCode headers buffer
        = .resolved ⟨.null, headers, statusCode⟩) ∧
    (headers.lookup "content-type" ≠ some "application/cbor" →
      headers.lookup "content-type" ≠ some "application/json" →
      decodeResponse env statusCode headers buffer
        = .resolved ⟨.string (utf8Decode buffer), headers, statusCode⟩) ∧
    (∀ (options : RequestOptions) (chunks : List Bytes),
      env.network options [] = .response statusCode headers chunks →
      chunks.flatten = buffer →
      (_get env options).2 = decodeResponse env statusCode headers buffer) := by
  refine ⟨?_, ?_, ?_⟩
  · intro hjson hempty
    have hne : ¬ (some "application/json" = some "application/cbor") := by decide
    have key : ∀ e : Env, decodeResponse e statusCode headers buffer
        = .resolved ⟨.null, headers, statusCode⟩ := by
      intro e
      unfold decodeResponse
      rw [hjson, if_neg hne, hempty]
      rfl
    exact ⟨key env, key⟩
  · intro hcbor hjson
    unfold decodeResponse
    rw [if_neg hcbor, if_neg hjson]
  · intro options chunks hnet hflat
    simp only [_get, _httpRequest, writeBody, hnet, hflat]

/-- C16, at status 400: an empty `application/json` body decodes to `null`
although `JSON.parse` would fail, and a `text/plain` body decodes to its
text. -/
theorem decode_empty_json_and_raw_text_witness :
    decodeResponse sampleEnv 400 [("content-type", "application/json")] []
      = .resolved ⟨.null, [("content-type", "application/json")], 400⟩ ∧
    decodeResponse sampleEnv 200 [("content-type", "text/plain")] [0x6F, 0x6B]
      = .resolved ⟨.string "ok", [("content-type", "text/plain")], 200⟩ :=
  ⟨((decode_empty_json_and_raw_text sampleEnv 400 [("content-type", "application/json")]
      []).1 rfl rfl).1,
    ((decode_empty_json_and_raw_text sampleEnv 200 [("content-type", "text/plain")]
      [0x6F, 0x6B]).2.1 (by decide) (by decide)).trans (by decide)⟩

/-- Reading `Transaction.Signature` and hashing it fails with a `TypeError`
when the envelope lacks the field. -/
theorem transactionId_of_lacksSignature (env : Env) (envelope : JSValue)
    (h : lacksSignature envelope = true) :
    transactionId env envelope = .error .typeError := by
  unfold lacksSignature at h
  unfold transactionId
  cases htx : getProp envelope "Transaction" with
  | error e =>
    have he : e = .typeError := by
      unfold getProp at htx
      cases envelope <;> simp at htx <;> exact htx.symm
    rw [he]
  | ok transaction =>
    rw [htx] at h
    simp only at h ⊢
    cases hsig : getProp transaction "Signature" with
    | error e =>
      have he : e = .typeError := by
        unfold getProp at hsig
        cases transaction <;> simp at hsig <;> exact hsig.symm
      rw [he]
    | ok signature =>
      rw [hsig] at h
      simp only [decide_eq_true_eq] at h
      rw [h]
      rfl

/-- C19: when the response of `_sendTransaction` unwraps to an envelope
that lacks `Transaction.Signature` (the `null` of a 404 response and an
envelope without `Transaction` included), the promise is rejected, with a
`TypeError`, and no identifier is returned; when the unwrapper throws, the
promise is rejected with that same error. -/
theorem sendTransaction_failures (env : Env)
    (host port family txn : JSValue) (postArgs : RequestOptions) (data : Data)
    (result : RawResult)
    (hargs : postArguments host port family txn = .ok (postArgs, data))
    (hpost : (_post env postArgs data).2 = .resolved result) :
    (∀ envelope : JSValue, _unwrapResponseBody result = .ok envelope →
      lacksSignature envelope = true →
      (_sendTransaction env host port family txn).2 = .rejected .typeError ∧
      ∀ id : JSValue, (_sendTransaction env host port family txn).2 ≠ .resolved id) ∧
    (∀ e : Thrown, _unwrapResponseBody result = .error e →
      (_sendTransaction env host port family txn).2 = .rejected e) ∧
    lacksSignature .null = true ∧
    (∀ ps : JSProps, ps.find? "Transaction" = none → lacksSignature (.object ps) = true) := by
  refine ⟨?_, ?_, rfl, ?_⟩
  · intro envelope hunwrap hlacks
    have h : (_sendTransaction env host port family txn).2 = .rejected .typeError := by
      unfold _sendTransaction
      rw [hargs]
      simp only
      rw [hpost]
      simp only
      rw [hunwrap]
      simp only
      rw [transactionId_of_lacksSignature env envelope hlacks]
    refine ⟨h, ?_⟩
    intro id hid
    rw [h] at hid
    cases hid
  · intro e hunwrap
    unfold _sendTransaction
    rw [hargs]
    simp only
    rw [hpost]
    simp only
    rw [hunwrap]
  · intro ps hps
    simp only [lacksSignature, getProp, hps, Option.getD_none]

/-- C19, at a 404 response: the unwrapper returns `null` and the promise of
`_sendTransaction` is rejected with a `TypeError`. -/
theorem sendTransaction_failures_witness :
    _unwrapResponseBody ⟨.string "", [], 404⟩ = .ok .null ∧
    (_sendTransaction notFoundEnv (.string "localhost") (.number 8800) (.string "/mktplace")
        (.string "abc")).2 = .rejected .typeError :=
  ⟨rfl,
    ((sendTransaction_failures notFoundEnv (.string "localhost") (.number 8800)
      (.string "/mktplace") (.string "abc")
      { hostname := .string "localhost", port := .number 8800, path := .string "/mktplace",
        method := none,
        headers := [("Content-Type", .string "application/json"),
          ("Content-Length", .number 3)] }
      (.string "abc") ⟨.string "", [], 404⟩ rfl rfl).1 .null rfl rfl).1⟩

/-- Every result of `_unwrapResponseBody` is one of five: the body, `null`,
the structured error with status code 400, the generic error, or a
`TypeError`. -/
theorem unwrap_outcomes (r : RawResult) :
    _unwrapResponseBody r = .ok r.body ∨
    _unwrapResponseBody r = .ok .null ∨
    (∃ ty msg, _unwrapResponseBody r = .error (.structured 400 ty msg)) ∨
    _unwrapResponseBody r = .error (.error ("Invalid Request: " ++ toString r.statusCode)) ∨
    _unwrapResponseBody r = .error .typeError := by
  unfold _unwrapResponseBody
  by_cases c200 : r.statusCode = 200
  · rw [if_pos c200]; exact Or.inl rfl
  · rw [if_neg c200]
    by_cases c404 : r.statusCode = 404
    · rw [if_pos c404]; exact Or.inr (Or.inl rfl)
    · rw [if_neg c404]
      by_cases c400 : r.statusCode = 400
      · rw [if_pos c400]
        unfold sentinelExec
        cases jsToString r.body with
        | none => exact Or.inr (Or.inr (Or.inr (Or.inr rfl)))
        | some s =>
          simp only
          cases sentinelMatches s.data with
          | true => exact Or.inr (Or.inr (Or.inr (Or.inl rfl)))
          | false =>
            simp only
            unfold callSplit
            cases r.body with
            | string t => exact Or.inr (Or.inr (Or.inl ⟨_, _, rfl⟩))
            | undefined => exact Or.inr (Or.inr (Or.inr (Or.inr rfl)))
            | null => exact Or.inr (Or.inr (Or.inr (Or.inr rfl)))
            | bool b => exact Or.inr (Or.inr (Or.inr (Or.inr rfl)))
            | number n => exact Or.inr (Or.inr (Or.inr (Or.inr rfl)))
            | buffer b => exact Or.inr (Or.inr (Or.inr (Or.inr rfl)))
            | array xs => exact Or.inr (Or.inr (Or.inr (Or.inr rfl)))
            | object ps => exact Or.inr (Or.inr (Or.inr (Or.inr rfl)))
      · rw [if_neg c400]; exact Or.inr (Or.inr (Or.inr (Or.inl rfl)))

/-- C20, at a status 400 response with content type `application/json` and
an empty body: the transport resolves with the body `null`, and
`_unwrapResponseBody` then fails with a `TypeError` (from `split` on `null`),
which is none of the four outcomes. -/
theorem unwrap_400_null_typeError (env : Env) :
    decodeResponse env 400 [("content-type", "application/json")] []
      = .resolved ⟨.null, [("content-type", "application/json")], 400⟩ ∧
    _unwrapResponseBody ⟨.null, [("content-type", "application/json")], 400⟩
      = .error .typeError ∧
    _unwrapResponseBody ⟨.null, [("content-type", "application/json")], 400⟩
      ≠ .error (.error "Invalid Request: 400") ∧
    (∀ ty msg, _unwrapResponseBody ⟨.null, [("content-type", "application/json")], 400⟩
      ≠ .error (.structured 400 ty msg)) := by
  refine ⟨rfl, rfl, by decide, ?_⟩
  intro ty msg h
  have h2 : _unwrapResponseBody ⟨.null, [("content-type", "application/json")], 400⟩
      = .error .typeError := rfl
  rw [h2] at h
  cases h

/-! ## The store queries: claims C12, C13, C14 and C18 -/

theorem string_length_eq_zero (s : String) : s.length = 0 ↔ s = "" := by
  cases s with
  | mk data =>
    show data.length = 0 ↔ String.mk data = String.mk []
    rw [List.length_eq_zero]
    constructor
    · intro h; rw [h]
    · intro h; exact congrArg String.data h

/-- A failed path assertion makes `_getStoreApi` throw an assertion error
before any request, whatever host and port are. -/
theorem getStoreApi_of_storePath_error (env : Env) (host port : JSValue)
    (storeName key : StoreArg) (e : Thrown) (h : storePath storeName key = .error e) :
    ∃ message : String,
      _getStoreApi env host port storeName key = (none, .thrown (.assertionError message)) := by
  have he : ∃ m, e = .assertionError m := by
    unfold storePath at h
    cases storeName with
    | undefined => cases h
    | null => cases h
    | string name =>
      simp only at h
      by_cases hn : name.length = 0
      · rw [if_pos hn] at h
        exact ⟨_, (Except.error.inj h).symm⟩
      · rw [if_neg hn] at h
        cases key with
        | undefined => cases h
        | null => cases h
        | string k =>
          simp only at h
          by_cases hk : k.length = 0
          · rw [if_pos hk] at h
            exact ⟨_, (Except.error.inj h).symm⟩
          · rw [if_neg hk] at h
            cases h
  obtain ⟨m, rfl⟩ := he
  unfold _getStoreApi getArguments
  by_cases hhost : truthy host = true
  · by_cases hport : truthy port = true
    · exact ⟨m, by simp [hhost, hport, h]⟩
    · exact ⟨"'validatorPort' must be provided.", by simp [hhost, hport]⟩
  · exact ⟨"'validatorHost' must be provided.", by simp [hhost]⟩

/-- With host and port given, `_getStoreApi` sends a request for the path
that `storePath` builds. -/
theorem getStoreApi_of_storePath_ok (env : Env) (host port : JSValue)
    (storeName key : StoreArg) (path : String)
    (hhost : truthy host = true) (hport : truthy port = true)
    (h : storePath storeName key = .ok path) :
    requestPath (_getStoreApi env host port storeName key) = some path ∧
    ∃ ex : Exchange, (_getStoreApi env host port storeName key).1 = some ex ∧
      ex.options.path = .string path := by
  have hargs : getArguments host port storeName key
      = .ok { hostname := host, port := port, path := .string path, method := none,
              headers := [("Accept", .string "application/json")] } := by
    unfold getArguments
    simp [hhost, hport, h]
  have hopt := (httpRequest_sent env
    { hostname := host, port := port, path := .string path, method := none,
      headers := [("Accept", .string "application/json")] } none).1
  constructor
  · unfold requestPath _getStoreApi
    rw [hargs]
    simp only [_get]
    rw [hopt]
  · have hfst : (_getStoreApi env host port storeName key).1
        = some (_get env
            ({ hostname := host, port := port, path := JSValue.string path, method := none,
               headers := [("Accept", JSValue.string "application/json")] } :
              RequestOptions)).1 := by
      unfold _getStoreApi
      rw [hargs]
    refine ⟨_, hfst, ?_⟩
    simp only [_get]
    rw [hopt]

/-- When either host or port is missing, `_getStoreApi` throws an assertion
error before any request. -/
theorem getStoreApi_of_falsy (env : Env) (host port : JSValue) (storeName key : StoreArg)
    (h : truthy host = false ∨ truthy port = false) :
    ∃ message : String,
      _getStoreApi env host port storeName key = (none, .thrown (.assertionError message)) := by
  unfold _getStoreApi getArguments
  by_cases hhost : truthy host = true
  · have hport : truthy port = false := by
      rcases h with h | h
      · rw [h] at hhost; cases hhost
      · exact h
    exact ⟨"'validatorPort' must be provided.", by simp [hhost, hport]⟩
  · exact ⟨"'validatorHost' must be provided.", by simp [hhost]⟩

theorem patherize_of_no_slash (s : String) (h : s.data.head? ≠ some '/') :
    _patherize s = "/" ++ s := by
  unfold _patherize
  rw [if_neg h]

theorem storePath_name (name : String) (hname : name ≠ "") (key : StoreArg)
    (hkey : key = .undefined ∨ key = .null) :
    storePath (.string name) key = .ok ("/store" ++ _patherize name) := by
  have hlen : ¬ name.length = 0 := fun h => hname ((string_length_eq_zero name).mp h)
  unfold storePath
  simp only [if_neg hlen]
  rcases hkey with rfl | rfl <;> rfl

theorem storePath_name_key (name k : String) (hname : name ≠ "") (hk : k ≠ "") :
    storePath (.string name) (.string k)
      = .ok ("/store" ++ _patherize name ++ _patherize k) := by
  have hlen : ¬ name.length = 0 := fun h => hname ((string_length_eq_zero name).mp h)
  have hklen : ¬ k.length = 0 := fun h => hk ((string_length_eq_zero k).mp h)
  unfold storePath
  simp only [if_neg hlen, if_neg hklen]

theorem store_prefix_append (s : String) : "/store" ++ ("/" ++ s) = "/store/" ++ s := by
  rw [← String.append_assoc]
  rfl

/-- C12: for non-empty strings `storeName` and `key` that do not begin with
a slash, `key` not being `*`, and with host and port given: `getStores`
requests the path `/store`, `getStore` the path `/store/` + storeName,
`getStoreObjects` the path `/store/` + storeName + `/*`, and
`getStoreObject` the path `/store/` + storeName + `/` + key. -/
theorem store_request_paths (env : Env) (host port : JSValue) (storeName key : String)
    (hhost : truthy host = true) (hport : truthy port = true)
    (hname : storeName ≠ "") (hnameSlash : storeName.data.head? ≠ some '/')
    (hkey : key ≠ "") (hkeySlash : key.data.head? ≠ some '/') (hstar : key ≠ "*") :
    requestPath (getStores env host port) = some "/store" ∧
    requestPath (getStore env host port (.string storeName)) = some ("/store/" ++ storeName) ∧
    requestPath (getStoreObjects env host port (.string storeName))
      = some ("/store/" ++ storeName ++ "/*") ∧
    requestPath (getStoreObject env host port (.string storeName) (.string key))
      = some ("/store/" ++ storeName ++ "/" ++ key) := by
  have hp := patherize_of_no_slash storeName hnameSlash
  have hpk := patherize_of_no_slash key hkeySlash
  refine ⟨?_, ?_, ?_, ?_⟩
  · exact (getStoreApi_of_storePath_ok env host port .undefined .undefined "/store"
      hhost hport rfl).1
  · have h := storePath_name storeName hname .undefined (Or.inl rfl)
    rw [hp, store_prefix_append] at h
    exact (getStoreApi_of_storePath_ok env host port _ _ _ hhost hport h).1
  · have h := storePath_name_key storeName "*" hname (by decide)
    rw [hp, store_prefix_append] at h
    exact (getStoreApi_of_storePath_ok env host port _ _ _ hhost hport h).1
  · have h := storePath_name_key storeName key hname hkey
    rw [hp, hpk, store_prefix_append, ← String.append_assoc] at h
    have hne : ¬ (StoreArg.string key = StoreArg.string "*") := by
      intro heq
      exact hstar (StoreArg.string.inj heq)
    unfold getStoreObject
    rw [if_neg hne]
    exact (getStoreApi_of_storePath_ok env host port _ _ _ hhost hport h).1

/-- C12, at store `foo` and key `bar`: the paths are `/store`, `/store/foo`,
`/store/foo/*` and `/store/foo/bar`. -/
theorem store_request_paths_witness :
    requestPath (getStores sampleEnv (.string "localhost") (.number 8800)) = some "/store" ∧
    requestPath (getStore sampleEnv (.string "localhost") (.number 8800) (.string "foo"))
      = some "/store/foo" ∧
    requestPath (getStoreObjects sampleEnv (.string "localhost") (.number 8800)
      (.string "foo")) = some "/store/foo/*" ∧
    requestPath (getStoreObject sampleEnv (.string "localhost") (.number 8800)
      (.string "foo") (.string "bar")) = some "/store/foo/bar" :=
  store_request_paths sampleEnv (.string "localhost") (.number 8800) "foo" "bar"
    rfl rfl (by decide) (by decide) (by decide) (by decide) (by decide)

theorem storePath_empty_key (name : String) :
    ∃ e : Thrown, storePath (.string name) (.string "") = .error e := by
  unfold storePath
  by_cases hn : name.length = 0
  · refine ⟨.assertionError "'storeName' cannot be an empty string.", ?_⟩
    simp only [if_pos hn]
  · refine ⟨.assertionError "'key' cannot be an empty string.", ?_⟩
    simp only [if_neg hn]
    rfl

theorem storePath_empty_name (key : StoreArg) :
    storePath (.string "") key
      = .error (.assertionError "'storeName' cannot be an empty string.") := by
  rfl

/-- C13 as stated fails: with `storeName` left out (`undefined`) and the
empty key, `getStoreObject` throws nothing and requests the path `/store`. -/
theorem getStoreObject_empty_key_counterexample :
    requestPath (getStoreObject sampleEnv (.string "localhost") (.number 8800)
      .undefined (.string "")) = some "/store" ∧
    (getStoreObject sampleEnv (.string "localhost") (.number 8800)
      .undefined (.string "")).2 = .resolved sampleEnvelope := by
  decide

/-- C13, amended: for every host and port, `getStoreObject` with key `*`
throws an assertion error before any request, whatever `storeName` is; with
the empty key it does so for every `storeName` that is a string; and
`getStore`, `getStoreObjects` and `getStoreObject` with the empty
`storeName` throw an assertion error before any request. -/
theorem store_precondition_failures (env : Env) (host port : JSValue)
    (storeName key : StoreArg) (name : String) :
    (∃ m, getStoreObject env host port storeName (.string "*")
      = (none, .thrown (.assertionError m))) ∧
    (∃ m, getStoreObject env host port (.string name) (.string "")
      = (none, .thrown (.assertionError m))) ∧
    (∃ m, getStore env host port (.string "") = (none, .thrown (.assertionError m))) ∧
    (∃ m, getStoreObjects env host port (.string "")
      = (none, .thrown (.assertionError m))) ∧
    (∃ m, getStoreObject env host port (.string "") key
      = (none, .thrown (.assertionError m))) := by
  refine ⟨?_, ?_, ?_, ?_, ?_⟩
  · exact ⟨_, by unfold getStoreObject; rw [if_pos rfl]⟩
  · obtain ⟨e, he⟩ := storePath_empty_key name
    have hne : ¬ (StoreArg.string "" = StoreArg.string "*") := by decide
    unfold getStoreObject
    rw [if_neg hne]
    exact getStoreApi_of_storePath_error env host port _ _ e he
  · exact getStoreApi_of_storePath_error env host port _ _ _ (storePath_empty_name .undefined)
  · exact getStoreApi_of_storePath_error env host port _ _ _
      (storePath_empty_name (.string "*"))
  · unfold getStoreObject
    by_cases hstar : key = .string "*"
    · rw [if_pos hstar]
      exact ⟨_, rfl⟩
    · rw [if_neg hstar]
      exact getStoreApi_of_storePath_error env host port _ _ _ (storePath_empty_name key)

theorem patherize_length_pos (s : String) : 0 < (_patherize s).length := by
  unfold _patherize
  by_cases h : s.data.head? = some '/'
  · rw [if_pos h]
    cases s with
    | mk data =>
      cases data with
      | nil => simp at h
      | cons c cs => show 0 < (c :: cs).length; simp
  · rw [if_neg h, String.length_append]
    have : ("/" : String).length = 1 := rfl
    omega

/-- C14 as stated fails: with the key left out (`undefined`),
`getStoreObject` throws nothing and issues the key-listing request
`/store/foo`; with the store name left out it issues the store-listing
request `/store`. -/
theorem getStoreObject_missing_key_counterexample :
    requestPath (getStoreObject sampleEnv (.string "localhost") (.number 8800)
      (.string "foo") .undefined) = some "/store/foo" ∧
    (getStoreObject sampleEnv (.string "localhost") (.number 8800)
      (.string "foo") .undefined).2 = .resolved sampleEnvelope ∧
    requestPath (getStoreObject sampleEnv (.string "localhost") (.number 8800)
      .undefined (.string "bar")) = some "/store" := by
  decide

/-- C14, amended: for every call of `getStoreObject` with a string
`storeName` and a string `key`, either the call throws an assertion error
before any request, or it requests the path `/store` followed by the two
segments of `storeName` and `key`, which are then non-empty and `key` is
not `*`; an empty key and the key `*` are thrown back, and the path
requested is never `/store` nor the key-listing path of `storeName`. -/
theorem getStoreObject_path_or_failure (env : Env) (host port : JSValue)
    (storeName key : String) :
    ((∃ m, getStoreObject env host port (.string storeName) (.string key)
        = (none, .thrown (.assertionError m))) ∨
      (requestPath (getStoreObject env host port (.string storeName) (.string key))
          = some ("/store" ++ _patherize storeName ++ _patherize key) ∧
        storeName ≠ "" ∧ key ≠ "" ∧ key ≠ "*")) ∧
    ((key = "" ∨ key = "*") →
      ∃ m, getStoreObject env host port (.string storeName) (.string key)
        = (none, .thrown (.assertionError m))) ∧
    requestPath (getStoreObject env host port (.string storeName) (.string key))
      ≠ some "/store" ∧
    requestPath (getStoreObject env host port (.string storeName) (.string key))
      ≠ some ("/store" ++ _patherize storeName) := by
  have hfail : (key = "" ∨ key = "*") →
      ∃ m, getStoreObject env host port (.string storeName) (.string key)
        = (none, .thrown (.assertionError m)) := by
    intro h
    rcases h with rfl | rfl
    · exact (store_precondition_failures env host port .undefined .undefined storeName).2.1
    · exact ⟨_, by unfold getStoreObject; rw [if_pos rfl]⟩
  have hcases : (∃ m, getStoreObject env host port (.string storeName) (.string key)
        = (none, .thrown (.assertionError m))) ∨
      (requestPath (getStoreObject env host port (.string storeName) (.string key))
          = some ("/store" ++ _patherize storeName ++ _patherize key) ∧
        storeName ≠ "" ∧ key ≠ "" ∧ key ≠ "*") := by
    by_cases hstar : key = "*"
    · exact Or.inl (hfail (Or.inr hstar))
    · by_cases hkey : key = ""
      · exact Or.inl (hfail (Or.inl hkey))
      · have hne : ¬ (StoreArg.string key = StoreArg.string "*") :=
          fun heq => hstar (StoreArg.string.inj heq)
        by_cases hname : storeName = ""
        · left
          rw [hname]
          exact (store_precondition_failures env host port .undefined (.string key) "").2.2.2.2
        · by_cases hhp : truthy host = true ∧ truthy port = true
          · right
            refine ⟨?_, hname, hkey, hstar⟩
            unfold getStoreObject
            rw [if_neg hne]
            exact (getStoreApi_of_storePath_ok env host port _ _ _ hhp.1 hhp.2
              (storePath_name_key storeName key hname hkey)).1
          · left
            unfold getStoreObject
            rw [if_neg hne]
            apply getStoreApi_of_falsy
            by_cases hh : truthy host = true
            · right
              cases hp : truthy port with
              | true => exact absurd ⟨hh, hp⟩ hhp
              | false => rfl
            · left
              cases hp : truthy host with
              | true => exact absurd hp hh
              | false => rfl
  refine ⟨hcases, hfail, ?_, ?_⟩
  · rcases hcases with ⟨m, hm⟩ | ⟨hpath, -, -, -⟩
    · rw [hm]
      simp [requestPath]
    · rw [hpath]
      intro heq
      have hlen := congrArg String.length (Option.some.inj heq)
      rw [String.length_append, String.length_append] at hlen
      have h1 := patherize_length_pos storeName
      have h2 := patherize_length_pos key
      have h3 : ("/store" : String).length = 6 := rfl
      omega
  · rcases hcases with ⟨m, hm⟩ | ⟨hpath, -, -, -⟩
    · rw [hm]
      simp [requestPath]
    · rw [hpath]
      intro heq
      have hlen := congrArg String.length (Option.some.inj heq)
      simp only [String.length_append] at hlen
      have h2 := patherize_length_pos key
      omega

/-! ## The shape of store paths: claim C18 -/

theorem hasDoubleSlash_of_no_slash (l : List Char) (h : '/' ∉ l) :
    hasDoubleSlash l = false := by
  induction l with
  | nil => rfl
  | cons a rest ih =>
    cases rest with
    | nil => rfl
    | cons b rest2 =>
      have ha : a ≠ '/' := fun e => h (by rw [e]; exact List.mem_cons_self _ _)
      have hrest : '/' ∉ b :: rest2 := fun hm => h (List.mem_cons_of_mem _ hm)
      simp only [hasDoubleSlash, ih hrest, Bool.or_false, Bool.and_eq_false_imp,
        decide_eq_true_eq, decide_eq_false_iff_not]
      intro e
      exact absurd e ha

theorem getLast?_ne_slash (b : List Char) (hb : b ≠ []) (hs : '/' ∉ b) :
    b.getLast? ≠ some '/' := by
  rw [List.getLast?_eq_getLast b hb]
  intro h
  have hmem := List.getLast_mem hb
  rw [Option.some.inj h] at hmem
  exact hs hmem

/-- Appending a slash and a clean segment to a text without double slash
that does not end with a slash gives such a text again. -/
theorem append_segment_clean (p b : List Char)
    (hp1 : hasDoubleSlash p = false) (hp2 : endsWithSlash p = false)
    (hb : b ≠ []) (hs : '/' ∉ b) :
    hasDoubleSlash (p ++ '/' :: b) = false ∧ endsWithSlash (p ++ '/' :: b) = false := by
  constructor
  · induction p with
    | nil =>
      cases b with
      | nil => exact absurd rfl hb
      | cons c cs =>
        have hc : c ≠ '/' := fun e => hs (by rw [e]; exact List.mem_cons_self _ _)
        have hrest := hasDoubleSlash_of_no_slash (c :: cs) hs
        simp only [List.nil_append, hasDoubleSlash, hrest, Bool.or_false,
          Bool.and_eq_false_imp, decide_eq_true_eq, decide_eq_false_iff_not]
        intro _
        exact hc
    | cons a rest ih =>
      cases rest with
      | nil =>
        have ha : a ≠ '/' := by
          intro e
          rw [e] at hp2
          simp [endsWithSlash] at hp2
        have hbase : hasDoubleSlash ('/' :: b) = false := by
          have := ih rfl rfl
          simpa using this
        simp only [List.cons_append, List.nil_append, hasDoubleSlash, hbase, Bool.or_false,
          Bool.and_eq_false_imp, decide_eq_true_eq, decide_eq_false_iff_not]
        intro e
        exact absurd e ha
      | cons a2 rest2 =>
        simp only [hasDoubleSlash, Bool.or_eq_false_iff] at hp1
        have hp2' : endsWithSlash (a2 :: rest2) = false := by
          simpa [endsWithSlash] using hp2
        have hrec := ih hp1.2 hp2'
        simp only [List.cons_append] at hrec ⊢
        simp only [hasDoubleSlash, hrec, Bool.or_false]
        exact hp1.1
  · have hlast : (p ++ '/' :: b).getLast? = b.getLast? := by
      cases b with
      | nil => exact absurd rfl hb
      | cons c cs =>
        rw [List.getLast?_append, List.getLast?_cons_cons]
        rw [List.getLast?_eq_getLast (c :: cs) (by simp)]
        rfl
    have hne := getLast?_ne_slash b hb hs
    simp only [endsWithSlash, hlast, decide_eq_false_iff_not]
    exact hne

theorem patherize_data (s : String) (h : s ≠ "") :
    (_patherize s).data = '/' :: segmentBody s := by
  unfold _patherize segmentBody
  by_cases hh : s.data.head? = some '/'
  · rw [if_pos hh, if_pos hh]
    cases s with
    | mk data =>
      cases data with
      | nil => simp at hh
      | cons c cs =>
        simp only [List.head?_cons, Option.some.injEq] at hh
        rw [hh]
        rfl
  · rw [if_neg hh, if_neg hh, String.data_append]
    rfl

/-- C18 as stated fails: the store name `a/` is accepted and gives the path
`/store/a/`, which ends with a slash; the store name `a//b` is accepted and
gives `/store/a//b`, which contains two slashes in a row; and the store name
`/` gives `/store/`. -/
theorem storePath_slashes_counterexample :
    storePath (.string "a/") .undefined = .ok "/store/a/" ∧
    endsWithSlash "/store/a/".data = true ∧
    storePath (.string "a//b") .undefined = .ok "/store/a//b" ∧
    hasDoubleSlash "/store/a//b".data = true ∧
    storePath (.string "/") .undefined = .ok "/store/" ∧
    requestPath (getStore sampleEnv (.string "localhost") (.number 8800) (.string "a//b"))
      = some "/store/a//b" := by
  decide

/-- C18, amended: for every `storeName` and `key` that `_getStoreApi`
accepts and that, apart from one optional leading slash, are not empty and
contain no slash, the path built is `/store` followed by segments, each
with exactly one slash in front and none of them empty: the path never
contains two slashes in a row and never ends with a slash. -/
theorem storePath_slashes (storeName key : StoreArg) (path : String)
    (hpath : storePath storeName key = .ok path)
    (hname : ∀ s, storeName = .string s → cleanSegment s = true)
    (hkey : ∀ k, key = .string k → cleanSegment k = true) :
    hasDoubleSlash path.data = false ∧
    endsWithSlash path.data = false ∧
    ∃ segments : List (List Char),
      path.data = "/store".data ++ segments.flatMap (fun b => '/' :: b) ∧
      ∀ b ∈ segments, b ≠ [] ∧ '/' ∉ b := by
  have hclean : ∀ s : String, cleanSegment s = true →
      segmentBody s ≠ [] ∧ '/' ∉ segmentBody s := by
    intro s hs
    simp only [cleanSegment, Bool.and_eq_true, decide_eq_true_eq] at hs
    exact ⟨by simpa using hs.1, hs.2⟩
  have hbase1 : hasDoubleSlash "/store".data = false := by decide
  have hbase2 : endsWithSlash "/store".data = false := by decide
  have one : ∀ name : String, name ≠ "" → cleanSegment name = true →
      hasDoubleSlash ("/store" ++ _patherize name).data = false ∧
      endsWithSlash ("/store" ++ _patherize name).data = false ∧
      ("/store" ++ _patherize name).data = "/store".data ++ '/' :: segmentBody name := by
    intro name hne hc
    have hd : ("/store" ++ _patherize name).data = "/store".data ++ '/' :: segmentBody name := by
      rw [String.data_append, patherize_data name hne]
    obtain ⟨h1, h2⟩ := hclean name hc
    have := append_segment_clean "/store".data (segmentBody name) hbase1 hbase2 h1 h2
    rw [hd]
    exact ⟨this.1, this.2, rfl⟩
  unfold storePath at hpath
  cases storeName with
  | undefined =>
    cases hpath
    exact ⟨hbase1, hbase2, [], rfl, by simp⟩
  | null =>
    cases hpath
    exact ⟨hbase1, hbase2, [], rfl, by simp⟩
  | string name =>
    simp only at hpath
    by_cases hn : name.length = 0
    · rw [if_pos hn] at hpath
      cases hpath
    · rw [if_neg hn] at hpath
      have hne : name ≠ "" := fun h => hn ((string_length_eq_zero name).mpr h)
      have hcn := hname name rfl
      obtain ⟨n1, n2, n3⟩ := one name hne hcn
      obtain ⟨b1, b2⟩ := hclean name hcn
      cases key with
      | undefined =>
        cases hpath
        refine ⟨n1, n2, [segmentBody name], ?_, ?_⟩
        · rw [n3]; simp
        · intro b hb
          simp only [List.mem_singleton] at hb
          rw [hb]
          exact ⟨b1, b2⟩
      | null =>
        cases hpath
        refine ⟨n1, n2, [segmentBody name], ?_, ?_⟩
        · rw [n3]; simp
        · intro b hb
          simp only [List.mem_singleton] at hb
          rw [hb]
          exact ⟨b1, b2⟩
      | string k =>
        simp only at hpath
        by_cases hk : k.length = 0
        · rw [if_pos hk] at hpath
          cases hpath
        · rw [if_neg hk] at hpath
          have hke : k ≠ "" := fun h => hk ((string_length_eq_zero k).mpr h)
          have hck := hkey k rfl
          obtain ⟨k1, k2⟩ := hclean k hck
          cases hpath
          have hd : ("/store" ++ _patherize name ++ _patherize k).data
              = ("/store" ++ _patherize name).data ++ '/' :: segmentBody k := by
            rw [String.data_append, patherize_data k hke]
          have := append_segment_clean ("/store" ++ _patherize name).data (segmentBody k)
            n1 n2 k1 k2
          rw [hd]
          refine ⟨this.1, this.2, [segmentBody name, segmentBody k], ?_, ?_⟩
          · rw [n3]; simp
          · intro b hb
            simp only [List.mem_cons, List.mem_singleton, List.not_mem_nil, or_false] at hb
            rcases hb with rfl | rfl
            · exact ⟨b1, b2⟩
            · exact ⟨k1, k2⟩

/-- C18, amended, at store `foo` and key `/bar`: the path is
`/store/foo/bar`. -/
theorem storePath_slashes_witness :
    storePath (.string "foo") (.string "/bar") = .ok "/store/foo/bar" ∧
    hasDoubleSlash "/store/foo/bar".data = false ∧
    endsWithSlash "/store/foo/bar".data = false :=
  ⟨rfl,
    (storePath_slashes (.string "foo") (.string "/bar") "/store/foo/bar" rfl
      (fun s hs => by cases hs; decide) (fun k hk => by cases hk; decide)).1,
    (storePath_slashes (.string "foo") (.string "/bar") "/store/foo/bar" rfl
      (fun s hs => by cases hs; decide) (fun k hk => by cases hk; decide)).2.1⟩

end Validator
